import Mathlib

/-!
Verification development for the restic-backup-operator reconcilers.

The Go sources are shallowly embedded: pure helpers become Lean functions,
the reconcile loops become functions from an environment (the outcomes of the
external calls: executor invocations, object-store lookups) and the current
resource state to a trace of performed actions, the new status, and the
requeue directive.  Durations are modelled as `Int` nanoseconds, mirroring
Go's `time.Duration`; timestamps are `Int` parameters threaded explicitly
(Go reads `time.Now()`).  Object-store writes are modelled as always
succeeding: the claims under study quantify over executor and lookup
outcomes, not over apiserver write faults.
-/

namespace ResticOperator

/-- Tri-state condition status, mirroring `metav1.ConditionStatus`
("True" / "False" / "Unknown"). -/
inductive ConditionStatus where
  | isTrue
  | isFalse
  | isUnknown
deriving DecidableEq, Repr

/-- Shallow embedding of `metav1.Condition` restricted to the fields the
operator reads and writes (internal/conditions/conditions.go). -/
structure Condition where
  type : String
  status : ConditionStatus
  reason : String
  message : String
  lastTransitionTime : Int
deriving DecidableEq, Repr

/-- Embedding of `conditions.SetCondition` (conditions.go, lines 28-48).
The Go code first stamps the incoming condition with `now`, then scans for an
existing condition of the same type: on a hit with an unchanged status value
it restores the stored `LastTransitionTime`, overwrites that slot and stops;
otherwise the freshly stamped condition overwrites the slot (status changed)
or is appended at the end (type absent). -/
def SetCondition (now : Int) : List Condition → Condition → List Condition
  | [], condition => [{ condition with lastTransitionTime := now }]
  | c :: rest, condition =>
    if c.type = condition.type then
      (if c.status = condition.status then
        { condition with lastTransitionTime := c.lastTransitionTime }
      else
        { condition with lastTransitionTime := now }) :: rest
    else
      c :: SetCondition now rest condition

/-- Embedding of `conditions.GetCondition` (first condition of the given
type, or none). -/
def GetCondition : List Condition → String → Option Condition
  | [], _ => none
  | c :: rest, condType => if c.type = condType then some c else GetCondition rest condType

/-- Embedding of `conditions.IsConditionTrue`. -/
def IsConditionTrue (conditions : List Condition) (condType : String) : Bool :=
  match GetCondition conditions condType with
  | some c => c.status = ConditionStatus.isTrue
  | none => false

/-- Embedding of `conditions.NewCondition`; `now` stands for `time.Now()`. -/
def NewCondition (now : Int) (condType : String) (status : ConditionStatus)
    (reason message : String) : Condition :=
  { type := condType, status := status, reason := reason, message := message,
    lastTransitionTime := now }

/-- Embedding of `conditions.ReadyCondition`. -/
def ReadyCondition (now : Int) (reason message : String) : Condition :=
  NewCondition now "Ready" ConditionStatus.isTrue reason message

/-- Embedding of `conditions.NotReadyCondition`. -/
def NotReadyCondition (now : Int) (reason message : String) : Condition :=
  NewCondition now "Ready" ConditionStatus.isFalse reason message

/-- Embedding of `conditions.UnknownCondition`. -/
def UnknownCondition (now : Int) (reason message : String) : Condition :=
  NewCondition now "Ready" ConditionStatus.isUnknown reason message

/-- One nanosecond, the unit of Go `time.Duration`. -/
def Nanosecond : Int := 1

/-- Go `time.Second` in nanoseconds. -/
def Second : Int := 1000000000

/-- Go `time.Minute` in nanoseconds. -/
def Minute : Int := 60 * Second

/-- Go `time.Hour` in nanoseconds. -/
def Hour : Int := 60 * Minute

/-- `defaultRequeueInterval = 1 * time.Hour` (resticrepository_controller.go). -/
def defaultRequeueInterval : Int := 1 * Hour

/-- `errorRequeueInterval = 30 * time.Second` (resticrepository_controller.go). -/
def errorRequeueInterval : Int := 30 * Second

/-- `DefaultStaleLockThreshold = 30 * time.Minute`. -/
def DefaultStaleLockThreshold : Int := 30 * Minute

/-- Embedding of `ResticRepositoryReconciler.getStaleLockThreshold`: the
configured threshold when positive, else the default. -/
def getStaleLockThreshold (staleLockThreshold : Int) : Int :=
  if staleLockThreshold > 0 then staleLockThreshold else DefaultStaleLockThreshold

/-- Longest run of ASCII digits at the head of the list, with the remainder. -/
def takeDigits : List Char → List Char × List Char
  | [] => ([], [])
  | c :: cs =>
    if c.isDigit then
      let (ds, rest) := takeDigits cs
      (c :: ds, rest)
    else
      ([], c :: cs)

/-- Longest run of digits or dots at the head of the list (the `[\d.]+`
character class of `lockAgeRegex`), with the remainder. -/
def takeDigitsDots : List Char → List Char × List Char
  | [] => ([], [])
  | c :: cs =>
    if c.isDigit || c = '.' then
      let (ds, rest) := takeDigitsDots cs
      (c :: ds, rest)
    else
      ([], c :: cs)

/-- Numeric value of a digit string (most significant digit first). -/
def digitsToNat (ds : List Char) : Nat :=
  ds.foldl (fun acc c => acc * 10 + (c.toNat - '0'.toNat)) 0

/-- Matcher for one optional group `(\d+u)?` of `lockAgeRegex` (u is 'h' or
'm'): a nonempty digit run directly followed by the unit letter.  Greedy
digit consumption is exact here: a shorter digit run would leave a digit in
unit position, so backtracking inside `\d+` can never succeed. -/
def matchUnitGroup (u : Char) (cs : List Char) : Option (List Char × List Char) :=
  let (ds, rest) := takeDigits cs
  if ds.isEmpty then none
  else
    match rest with
    | c :: rest2 => if c = u then some (ds ++ [u], rest2) else none
    | _ => none

/-- Matcher for the mandatory tail `[\d.]+s ago\)` of `lockAgeRegex`.
Greedy consumption of `[\d.]+` is exact: a shorter run would leave a digit
or dot where 's' is required. -/
def matchBody (cs : List Char) : Option (List Char) :=
  let (body, rest) := takeDigitsDots cs
  if body.isEmpty then none
  else
    match rest with
    | 's' :: ' ' :: 'a' :: 'g' :: 'o' :: ')' :: _ =>
      some (body ++ ['s', ' ', 'a', 'g', 'o', ')'])
    | _ => none

/-- Matcher for `(\d+m)?[\d.]+s ago\)` with the Perl backtracking priority
of Go's regexp engine: the greedy alternative of the optional minute group is
tried first, and on failure of the remainder the group matches empty. -/
def matchAfterHour (pre : List Char) (cs : List Char) : Option (List Char) :=
  match matchUnitGroup 'm' cs with
  | some (g, cs2) =>
    match matchBody cs2 with
    | some b => some (pre ++ g ++ b)
    | none => (matchBody cs).map (fun b => pre ++ b)
  | none => (matchBody cs).map (fun b => pre ++ b)

/-- Matcher for the whole `lockAgeRegex` pattern
`\((\d+h)?(\d+m)?[\d.]+s ago\)` anchored at the head of the list, returning
the matched characters. -/
def matchAt (cs : List Char) : Option (List Char) :=
  match cs with
  | '(' :: cs1 =>
    (match matchUnitGroup 'h' cs1 with
     | some (g, cs2) =>
       match matchAfterHour g cs2 with
       | some m => some ('(' :: m)
       | none => (matchAfterHour [] cs1).map (fun m => '(' :: m)
     | none => (matchAfterHour [] cs1).map (fun m => '(' :: m))
  | _ => none

/-- Leftmost match of `lockAgeRegex` in the character list. -/
def regexFindFrom : List Char → Option (List Char)
  | [] => none
  | c :: cs =>
    match matchAt (c :: cs) with
    | some m => some m
    | none => regexFindFrom cs

/-- Embedding of `lockAgeRegex.FindString`: the leftmost match of
`\((\d+h)?(\d+m)?[\d.]+s ago\)`, or none when the message holds no match
(Go returns `""`; the empty result is modelled as `none`). -/
def lockAgeRegexFindString (s : String) : Option String :=
  (regexFindFrom s.toList).map List.asString

/-- Embedding of the trimming step of `parseLockAge`:
`strings.TrimSuffix(strings.TrimPrefix(match, "("), " ago)")`. -/
def lockDurationString (m : String) : String :=
  let l1 := if m.toList.head? = some '(' then m.toList.drop 1 else m.toList
  let suf := (" ago)").toList
  let l2 := if suf.isSuffixOf l1 then l1.take (l1.length - suf.length) else l1
  List.asString l2

/-- Longest run of unit letters (characters that are neither digits nor
dots) at the head of the list, as in Go `time.ParseDuration`'s unit scan. -/
def takeUnit : List Char → List Char × List Char
  | [] => ([], [])
  | c :: cs =>
    if c.isDigit || c = '.' then
      ([], c :: cs)
    else
      let (us, rest) := takeUnit cs
      (c :: us, rest)

/-- Go `unitMap` restricted to the ASCII units; the duration strings
reachable from `parseLockAge` only ever carry the units h, m and s. -/
def unitValue : List Char → Option Int
  | ['n', 's'] => some 1
  | ['u', 's'] => some 1000
  | ['m', 's'] => some 1000000
  | ['s'] => some Second
  | ['m'] => some Minute
  | ['h'] => some Hour
  | _ => none

/-- One pass of Go `time.ParseDuration`'s main loop: leading integer digits,
an optional fractional part, then a unit.  At least one digit must appear in
the integer or fractional part, and a unit must follow.  The fractional
contribution is the exact rational floor `f * unit / scale`; Go computes it
in float64, which agrees on every duration string the lock-age regex can
produce. -/
def parseDurLoop : Nat → List Char → Int → Option Int
  | _, [], acc => some acc
  | 0, _ :: _, _ => none
  | fuel + 1, cs, acc =>
    let (ints, r1) := takeDigits cs
    let (hasDot, fracs, r2) :=
      match r1 with
      | '.' :: restd =>
        let (fs, rr) := takeDigits restd
        (true, fs, rr)
      | _ => (false, ([] : List Char), r1)
    if ints.isEmpty && (!hasDot || fracs.isEmpty) then none
    else
      let v : Int := Int.ofNat (digitsToNat ints)
      let f : Int := Int.ofNat (digitsToNat fracs)
      let scale : Int := Int.ofNat (10 ^ fracs.length)
      let (unit, r3) := takeUnit r2
      if unit.isEmpty then none
      else
        match unitValue unit with
        | none => none
        | some uv => parseDurLoop fuel r3 (acc + v * uv + (f * uv) / scale)

/-- Embedding of Go `time.ParseDuration` on the unsigned fragment reachable
from `parseLockAge` (the sign-handling prefix of the Go code is unreachable
there: regex matches never begin with a sign). -/
def goParseDuration (s : String) : Option Int :=
  if s = "0" then some 0
  else if s.isEmpty then none
  else parseDurLoop s.length s.toList 0

/-- Embedding of `parseLockAge` (resticrepository_controller.go, lines
264-279): find the lock-age pattern, trim it to a duration string, parse it;
every failure collapses to a zero duration. -/
def parseLockAge (errMsg : String) : Int :=
  match lockAgeRegexFindString errMsg with
  | none => 0
  | some m =>
    match goParseDuration (lockDurationString m) with
    | none => 0
    | some duration => duration

/-- Containment of a character list in another at any position. -/
def listContains (sub : List Char) : List Char → Bool
  | [] => sub.isEmpty
  | c :: cs => sub.isPrefixOf (c :: cs) || listContains sub cs

/-- Embedding of `strings.Contains`. -/
def goContains (s substr : String) : Bool :=
  listContains substr.toList s.toList

/-- Fractional part of Go `time.Duration.String` for the seconds position:
nine digits, trailing zeros removed, preceded by a dot; empty when zero. -/
def goDurationFrac (frac : Nat) : String :=
  if frac = 0 then ""
  else
    let padded := (toString (frac + 1000000000)).toList.drop 1
    let stripped := (padded.reverse.dropWhile (fun c => c = '0')).reverse
    "." ++ List.asString stripped

/-- Embedding of Go `time.Duration.String` for nonnegative durations of at
least one second (the sub-second branches are never reached by the lock-age
messages the reconciler formats: ages and thresholds compared there are
whole seconds or zero, and zero prints as "0s"). -/
def goDurationString (d : Int) : String :=
  let u := d.toNat
  if u < 1000000000 then "0s"
  else
    let secStr := toString (u / 1000000000 % 60) ++ goDurationFrac (u % 1000000000) ++ "s"
    let mAll := u / 1000000000 / 60
    if mAll = 0 then secStr
    else
      let minStr := toString (mAll % 60) ++ "m" ++ secStr
      let hAll := mAll / 60
      if hAll = 0 then minStr else toString hAll ++ "h" ++ minStr

/-- The `RepositoryLocked` condition message
(`fmt.Sprintf("Repository is locked by another operation (lock age: %s, threshold: %s)", lockAge, threshold)`). -/
def lockAgeMessage (lockAge threshold : Int) : String :=
  "Repository is locked by another operation (lock age: " ++ goDurationString lockAge ++
    ", threshold: " ++ goDurationString threshold ++ ")"

/-- Division factor and exponent loop of `formatBytes`. -/
def formatBytesDiv : Nat → Nat → Nat → Nat → Nat × Nat
  | 0, _, div, exp => (div, exp)
  | fuel + 1, n, div, exp =>
    if n ≥ 1024 then formatBytesDiv fuel (n / 1024) (div * 1024) (exp + 1)
    else (div, exp)

/-- Embedding of `formatBytes` (resticrepository_controller.go, lines
248-259).  The `%.1f` formatting is modelled as exact rational rounding to
one decimal, half to even, which is the value float64 produces for every
byte count whose quotient is representable; no claim under study depends on
the printed digits. -/
def formatBytes (bytes : Nat) : String :=
  if bytes < 1024 then toString bytes ++ " B"
  else
    let (div, exp) := formatBytesDiv 7 (bytes / 1024) 1024 0
    let q := bytes * 10 / div
    let r := bytes * 10 % div
    let tenths := if 2 * r > div || (2 * r = div && q % 2 = 1) then q + 1 else q
    toString (tenths / 10) ++ "." ++ toString (tenths % 10) ++ " " ++
      List.asString [(['K', 'M', 'G', 'T', 'P', 'E'].getD exp 'E')] ++ "iB"

/-- Statistics block of the `ResticRepository` status. -/
structure RepositoryStatistics where
  totalSize : String
  totalFileCount : Int
  snapshotCount : Int
deriving DecidableEq, Repr

/-- The status fields of a `ResticRepository` touched by its reconciler. -/
structure RepoStatus where
  conditions : List Condition
  observedGeneration : Int
  statistics : Option RepositoryStatistics
deriving DecidableEq, Repr

/-- Raw result of the executor's `Stats` call. -/
structure StatsResult where
  totalSize : Nat
  totalFileCount : Nat
  snapshotCount : Nat
deriving DecidableEq, Repr

/-- One externally visible step of a repository reconcile: an executor
invocation or a status write (the written snapshot is recorded). -/
inductive RepoAction where
  | check
  | unlock
  | init
  | stats
  | statusUpdate (s : RepoStatus)
deriving DecidableEq, Repr

/-- Outcomes of the external calls a single repository reconcile can make.
`none` stands for a successful call, `some msg` for a failure with that
error text; `statsResult = none` means the statistics query failed. -/
structure RepoEnv where
  credsErr : Option String
  checkErr : Option String
  unlockErr : Option String
  recheckErr : Option String
  initErr : Option String
  statsResult : Option StatsResult
deriving DecidableEq, Repr

/-- Result of one repository reconcile: the ordered action trace, the final
status, and the requeue interval returned to the controller runtime. -/
structure RepoOutcome where
  trace : List RepoAction
  status : RepoStatus
  requeueAfter : Int
deriving DecidableEq, Repr

/-- Success tail of the repository reconcile (resticrepository_controller.go,
lines 162-193): write `Ready=True/RepositoryAccessible` plus the observed
generation first, then query statistics; a statistics failure is only
logged, a statistics success triggers a second status write. -/
def repoReadyPath (now generation : Int) (env : RepoEnv) (acts : List RepoAction)
    (status : RepoStatus) : RepoOutcome :=
  let s1 : RepoStatus :=
    { status with
      conditions := SetCondition now status.conditions
        (ReadyCondition now "RepositoryAccessible" "Repository is initialized and accessible"),
      observedGeneration := generation }
  let acts1 := acts ++ [RepoAction.statusUpdate s1, RepoAction.stats]
  match env.statsResult with
  | none => { trace := acts1, status := s1, requeueAfter := defaultRequeueInterval }
  | some st =>
    let newStats : RepositoryStatistics :=
      { totalSize := formatBytes st.totalSize,
        totalFileCount := Int.ofNat st.totalFileCount,
        snapshotCount := Int.ofNat st.snapshotCount }
    let s2 : RepoStatus := { s1 with statistics := some newStats }
    { trace := acts1 ++ [RepoAction.statusUpdate s2], status := s2,
      requeueAfter := defaultRequeueInterval }

/-- Initialization fallback (resticrepository_controller.go, lines 144-157):
invoke `Init`; on failure set `Ready=False/InitializationFailed` and requeue
after the short interval, on success continue to the ready tail. -/
def repoInitPath (now generation : Int) (env : RepoEnv) (acts : List RepoAction)
    (status : RepoStatus) : RepoOutcome :=
  let acts1 := acts ++ [RepoAction.init]
  match env.initErr with
  | some initErr =>
    let conds := SetCondition now status.conditions
      (NotReadyCondition now "InitializationFailed" initErr)
    let s1 : RepoStatus := { status with conditions := conds }
    { trace := acts1 ++ [RepoAction.statusUpdate s1], status := s1,
      requeueAfter := errorRequeueInterval }
  | none => repoReadyPath now generation env acts1 status

/-- Embedding of `ResticRepositoryReconciler.Reconcile`
(resticrepository_controller.go, lines 69-194) from the point the resource
was fetched: credentials resolution, the `Check` call, the stale-lock
branch, the initialization fallback and the ready/statistics tail.  Status
writes are modelled as succeeding (their error returns are apiserver
faults outside the claims under study). -/
def reconcileResticRepository (staleLockThreshold now generation : Int)
    (env : RepoEnv) (status : RepoStatus) : RepoOutcome :=
  match env.credsErr with
  | some credsErr =>
    let conds := SetCondition now status.conditions
      (NotReadyCondition now "CredentialsNotFound" credsErr)
    let s1 : RepoStatus := { status with conditions := conds }
    { trace := [RepoAction.statusUpdate s1], status := s1,
      requeueAfter := errorRequeueInterval }
  | none =>
    match env.checkErr with
    | none => repoReadyPath now generation env [RepoAction.check] status
    | some errStr =>
      if goContains errStr "repository is already locked" then
        let lockAge := parseLockAge errStr
        let threshold := getStaleLockThreshold staleLockThreshold
        if lockAge ≥ threshold then
          match env.unlockErr with
          | some unlockErr =>
            let conds := SetCondition now status.conditions
              (NotReadyCondition now "UnlockFailed" unlockErr)
            let s1 : RepoStatus := { status with conditions := conds }
            { trace := [RepoAction.check, RepoAction.unlock, RepoAction.statusUpdate s1],
              status := s1, requeueAfter := errorRequeueInterval }
          | none =>
            match env.recheckErr with
            | none =>
              repoReadyPath now generation env
                [RepoAction.check, RepoAction.unlock, RepoAction.check] status
            | some _ =>
              repoInitPath now generation env
                [RepoAction.check, RepoAction.unlock, RepoAction.check] status
        else
          let conds := SetCondition now status.conditions
            (NotReadyCondition now "RepositoryLocked" (lockAgeMessage lockAge threshold))
          let s1 : RepoStatus := { status with conditions := conds }
          { trace := [RepoAction.check, RepoAction.statusUpdate s1], status := s1,
            requeueAfter := errorRequeueInterval }
      else
        repoInitPath now generation env [RepoAction.check] status

/-- Count of `Check` invocations in a trace. -/
def countCheck (trace : List RepoAction) : Nat :=
  trace.countP fun a => a = RepoAction.check

/-- Count of `Unlock` invocations in a trace. -/
def countUnlock (trace : List RepoAction) : Nat :=
  trace.countP fun a => a = RepoAction.unlock

/-- Count of `Init` invocations in a trace. -/
def countInit (trace : List RepoAction) : Nat :=
  trace.countP fun a => a = RepoAction.init

/-- The claim-side success predicate for a repository reconcile: the check
call, or its post-unlock retry, or the initialization fallback succeeds, so
control reaches the ready tail. -/
def repoCheckSucceeds (staleLockThreshold : Int) (env : RepoEnv) : Bool :=
  env.credsErr = none &&
    match env.checkErr with
    | none => true
    | some errStr =>
      if goContains errStr "repository is already locked" then
        if parseLockAge errStr ≥ getStaleLockThreshold staleLockThreshold then
          env.unlockErr = none && (env.recheckErr = none || env.initErr = none)
        else false
      else env.initErr = none

/-- Embedding of the `RestorePhase` string enumeration
(resticrestore_types.go): the empty phase plus the four lifecycle phases. -/
inductive RestorePhase where
  | unset
  | pending
  | inProgress
  | completed
  | failed
deriving DecidableEq, Repr

/-- Embedding of `ObjectReference` (name plus namespace). -/
structure ObjectReference where
  name : String
  namespaceName : String
deriving DecidableEq, Repr

/-- Embedding of `SnapshotSelector` (resticrestore_types.go). -/
structure SnapshotSelector where
  latest : Bool
  tags : List String
  hostname : String
  before : Option Int
deriving DecidableEq, Repr

/-- The `ResticRestoreSpec` fields the restore reconciler reads. -/
structure ResticRestoreSpec where
  backupRefName : String
  backupRefNamespace : String
  snapshotID : String
  snapshotSelector : Option SnapshotSelector
  includePaths : List String
  excludePaths : List String
  verify : Bool
deriving DecidableEq, Repr

/-- The `ResticRestoreStatus` fields the restore reconciler writes. -/
structure RestoreStatus where
  phase : RestorePhase
  conditions : List Condition
  startTime : Option Int
  completionTime : Option Int
  restoredSnapshot : String
  jobRef : Option ObjectReference
deriving DecidableEq, Repr

/-- Outcome of the `Create` call for the restore job: success, an
already-exists error (tolerated by the reconciler), or any other failure. -/
inductive CreateJobResult where
  | ok
  | alreadyExists
  | failed (msg : String)
deriving DecidableEq, Repr

/-- Outcomes of the external calls a single restore reconcile can make.
`backupErr`/`repoErr` are the reference-resolution failures of
`getBackup`/`getRepository`; `jobFound`, `jobSucceeded` and `jobFailed`
describe the referenced job when `handleInProgress` polls it. -/
structure RestoreEnv where
  deletionRequested : Bool
  hasFinalizer : Bool
  backupErr : Option String
  repoErr : Option String
  createResult : CreateJobResult
  jobFound : Bool
  jobSucceeded : Nat
  jobFailed : Nat
deriving DecidableEq, Repr

/-- One externally visible step of a restore reconcile: a spec write
(finalizer add/remove), a status write (snapshot recorded), the job
creation, or the job poll. -/
inductive RestoreAction where
  | updateSpec
  | statusUpdate (s : RestoreStatus)
  | createJob (name : String)
  | getJob
deriving DecidableEq, Repr

/-- Result of one restore reconcile: action trace, final status, requeue
interval (0 models `ctrl.Result{}`, i.e. no requeue). -/
structure RestoreOutcome where
  trace : List RestoreAction
  status : RestoreStatus
  requeueAfter : Int
deriving DecidableEq, Repr

/-- Embedding of `ResticRestoreReconciler.handlePending` (lines 812-889 of
the restore controller): resolve the backup, then the repository through
it — either failure sets phase=Failed with no requeue; otherwise resolve
the snapshot token, create the one-shot job, and on success record job
reference, snapshot, start time, move to InProgress and poll after 10s. -/
def handlePending (now : Int) (env : RestoreEnv) (name namespaceName : String)
    (spec : ResticRestoreSpec) (status : RestoreStatus) : RestoreOutcome :=
  match env.backupErr with
  | some e =>
    let conds := SetCondition now status.conditions (NotReadyCondition now "BackupNotFound" e)
    let s1 : RestoreStatus := { status with phase := RestorePhase.failed, conditions := conds }
    { trace := [RestoreAction.statusUpdate s1], status := s1, requeueAfter := 0 }
  | none =>
    match env.repoErr with
    | some e =>
      let conds := SetCondition now status.conditions (NotReadyCondition now "RepositoryNotFound" e)
      let s1 : RestoreStatus := { status with phase := RestorePhase.failed, conditions := conds }
      { trace := [RestoreAction.statusUpdate s1], status := s1, requeueAfter := 0 }
    | none =>
      let snapshotID0 := spec.snapshotID
      let snapshotID1 :=
        if snapshotID0 = "" && spec.snapshotSelector.isSome then "latest" else snapshotID0
      let snapshotID := if snapshotID1 = "" then "latest" else snapshotID1
      let jobName := "resticrestore-" ++ name
      match env.createResult with
      | CreateJobResult.failed e =>
        let conds := SetCondition now status.conditions
          (NotReadyCondition now "JobCreationFailed" e)
        let s1 : RestoreStatus := { status with phase := RestorePhase.failed, conditions := conds }
        { trace := [RestoreAction.createJob jobName, RestoreAction.statusUpdate s1],
          status := s1, requeueAfter := 0 }
      | _ =>
        let conds := SetCondition now status.conditions
          (NewCondition now "Ready" ConditionStatus.isUnknown "RestoreInProgress"
            "Restore job is running")
        let s1 : RestoreStatus :=
          { status with
            phase := RestorePhase.inProgress,
            startTime := some now,
            restoredSnapshot := snapshotID,
            jobRef := some { name := jobName, namespaceName := namespaceName },
            conditions := conds }
        { trace := [RestoreAction.createJob jobName, RestoreAction.statusUpdate s1],
          status := s1, requeueAfter := 10 * Second }

/-- Embedding of `ResticRestoreReconciler.handleInProgress` (lines 891-948):
a missing job reference or a vanished job fails the restore with reason
`JobNotFound`; `succeeded > 0` completes it, `failed > 0` (checked second)
fails it, both with a completion timestamp; otherwise the reconcile leaves
the status untouched and polls again after 10 seconds.  A job lookup error
other than not-found makes the Go code return the error with no state
change; that apiserver fault is outside this model. -/
def handleInProgress (now : Int) (env : RestoreEnv) (status : RestoreStatus) : RestoreOutcome :=
  match status.jobRef with
  | none =>
    let conds := SetCondition now status.conditions
      (NotReadyCondition now "JobNotFound" "No job reference in status")
    let s1 : RestoreStatus := { status with phase := RestorePhase.failed, conditions := conds }
    { trace := [RestoreAction.statusUpdate s1], status := s1, requeueAfter := 0 }
  | some _ =>
    if !env.jobFound then
      let conds := SetCondition now status.conditions
        (NotReadyCondition now "JobNotFound" "Restore job was not found")
      let s1 : RestoreStatus := { status with phase := RestorePhase.failed, conditions := conds }
      { trace := [RestoreAction.getJob, RestoreAction.statusUpdate s1], status := s1,
        requeueAfter := 0 }
    else if env.jobSucceeded > 0 then
      let conds := SetCondition now status.conditions
        (ReadyCondition now "RestoreCompleted" "Restore completed successfully")
      let s1 : RestoreStatus :=
        { status with
          phase := RestorePhase.completed, completionTime := some now,
          conditions := conds }
      { trace := [RestoreAction.getJob, RestoreAction.statusUpdate s1], status := s1,
        requeueAfter := 0 }
    else if env.jobFailed > 0 then
      let conds := SetCondition now status.conditions
        (NotReadyCondition now "RestoreFailed" "Restore job failed")
      let s1 : RestoreStatus :=
        { status with
          phase := RestorePhase.failed, completionTime := some now,
          conditions := conds }
      { trace := [RestoreAction.getJob, RestoreAction.statusUpdate s1], status := s1,
        requeueAfter := 0 }
    else
      { trace := [RestoreAction.getJob], status := status, requeueAfter := 10 * Second }

/-- Embedding of `ResticRestoreReconciler.Reconcile` (lines 747-795) from
the point the resource was fetched: deletion short-circuits to finalizer
removal; a missing finalizer is added; an empty phase is checkpointed to
Pending and handling continues in the same reconcile; Pending and
InProgress dispatch to their handlers; Completed and Failed return with no
action. -/
def reconcileResticRestore (now : Int) (env : RestoreEnv) (name namespaceName : String)
    (spec : ResticRestoreSpec) (status : RestoreStatus) : RestoreOutcome :=
  if env.deletionRequested then
    if env.hasFinalizer then
      { trace := [RestoreAction.updateSpec], status := status, requeueAfter := 0 }
    else
      { trace := [], status := status, requeueAfter := 0 }
  else
    let finalizerActs := if env.hasFinalizer then [] else [RestoreAction.updateSpec]
    let (initActs, status1) :=
      if status.phase = RestorePhase.unset then
        let s1 : RestoreStatus := { status with phase := RestorePhase.pending }
        ([RestoreAction.statusUpdate s1], s1)
      else
        ([], status)
    let tail : RestoreOutcome :=
      match status1.phase with
      | RestorePhase.pending => handlePending now env name namespaceName spec status1
      | RestorePhase.inProgress => handleInProgress now env status1
      | _ => { trace := [], status := status1, requeueAfter := 0 }
    { trace := finalizerActs ++ initActs ++ tail.trace, status := tail.status,
      requeueAfter := tail.requeueAfter }

/-- Rank of a restore phase in the forward order
unset < Pending < InProgress < {Completed, Failed}. -/
def phaseRank : RestorePhase → Nat
  | RestorePhase.unset => 0
  | RestorePhase.pending => 1
  | RestorePhase.inProgress => 2
  | RestorePhase.completed => 3
  | RestorePhase.failed => 3

/-- The permitted forward moves of the restore phase: stay put, check the
empty phase in at Pending (possibly continuing onward in the same
reconcile), start the job, or finish; a configuration failure may send
Pending straight to Failed. -/
def forwardStep (p q : RestorePhase) : Prop :=
  p = q ∨
  (p = RestorePhase.unset ∧ q ≠ RestorePhase.unset) ∨
  (p = RestorePhase.pending ∧ (q = RestorePhase.inProgress ∨ q = RestorePhase.failed)) ∨
  (p = RestorePhase.inProgress ∧ (q = RestorePhase.completed ∨ q = RestorePhase.failed))

/-- Number of status writes in a restore action trace. -/
def countStatusWrites (trace : List RestoreAction) : Nat :=
  trace.countP fun a =>
    match a with
    | RestoreAction.statusUpdate _ => true
    | _ => false

/-- The `ResticRepository` spec fields read when descriptors are built. -/
structure ResticRepositoryInfo where
  repositoryURL : String
  credentialsSecretName : String
deriving DecidableEq, Repr

/-- Embedding of the PVC variant of `BackupSource`. -/
structure PVCSource where
  claimName : String
  paths : List String
  excludes : List String
deriving DecidableEq, Repr

/-- Embedding of the `Restic` options block of `ResticBackupSpec`. -/
structure ResticOptions where
  image : String
  hostname : String
  tags : List String
  extraArgs : List String
deriving DecidableEq, Repr

/-- The `JobConfiguration` fields `buildCronJob` reads. -/
structure JobConfiguration where
  successfulJobsHistoryLimit : Option Int
  failedJobsHistoryLimit : Option Int
  backoffLimit : Option Int
  activeDeadlineSeconds : Option Int
  concurrencyPolicy : String
deriving DecidableEq, Repr

/-- The `ResticBackupSpec` fields the backup reconciler reads. -/
structure ResticBackupSpec where
  repositoryRefName : String
  repositoryRefNamespace : String
  schedule : String
  timezone : String
  suspend : Bool
  sourcePVC : Option PVCSource
  restic : Option ResticOptions
  jobConfig : Option JobConfiguration
deriving DecidableEq, Repr

/-- A `ResticBackup` resource: metadata plus the spec fields used here. -/
structure ResticBackup where
  name : String
  namespaceName : String
  spec : ResticBackupSpec
deriving DecidableEq, Repr

/-- The generated CronJob spec, flattened to the fields `buildCronJob`
derives from its inputs: schedule/suspension/concurrency and history limits
at CronJob level, backoff/deadline at job level, and the container essentials
(image, command, args, credential wiring, mounted claim) of the pod
template.  The remaining podspec boilerplate (labels, security context,
restart policy) is constant in the source and carried by construction. -/
structure CronJobSpecModel where
  schedule : String
  suspend : Bool
  concurrencyPolicy : String
  successfulJobsHistoryLimit : Int
  failedJobsHistoryLimit : Int
  backoffLimit : Int
  activeDeadlineSeconds : Int
  timeZone : Option String
  image : String
  command : List String
  args : List String
  repositoryURL : String
  credentialsSecretName : String
  claimName : Option String
deriving DecidableEq, Repr

/-- A generated CronJob: deterministic name, namespace, and spec. -/
structure CronJobModel where
  name : String
  namespaceName : String
  spec : CronJobSpecModel
deriving DecidableEq, Repr

/-- Embedding of `ResticBackupReconciler.buildBackupCommand`
(resticbackup_controller.go, lines 329-363): host, tags, excludes, extra
arguments, then the source paths prefixed with the `/backup` mount point
(or the bare mount point when no explicit path is given). -/
def buildBackupCommand (backup : ResticBackup) (hostname : String)
    (tags : List String) : List String :=
  ["restic", "backup", "--host", hostname]
    ++ tags.foldr (fun tag acc => "--tag" :: tag :: acc) []
    ++ (match backup.spec.sourcePVC with
        | some pvc => pvc.excludes.foldr (fun e acc => "--exclude" :: e :: acc) []
        | none => [])
    ++ (match backup.spec.restic with
        | some ro => ro.extraArgs
        | none => [])
    ++ (match backup.spec.sourcePVC with
        | some pvc =>
          if pvc.paths.length > 0 then pvc.paths.map (fun p => "/backup" ++ p)
          else ["/backup"]
        | none => [])

/-- Embedding of `ResticBackupReconciler.buildCronJob`
(resticbackup_controller.go, lines 229-327): deterministic name
`resticbackup-<name>`, image/hostname defaulting, job-configuration
defaulting (3/3 history, 0 backoff, 3600s deadline, Forbid concurrency),
and the timezone attached only when set and not "UTC". -/
def buildCronJob (backup : ResticBackup) (repository : ResticRepositoryInfo) : CronJobModel :=
  let resticImage :=
    match backup.spec.restic with
    | some ro => if ro.image ≠ "" then ro.image else "ghcr.io/restic/restic:0.18.0"
    | none => "ghcr.io/restic/restic:0.18.0"
  let hostname :=
    match backup.spec.restic with
    | some ro => if ro.hostname ≠ "" then ro.hostname else backup.name
    | none => backup.name
  let tags :=
    match backup.spec.restic with
    | some ro => ro.tags
    | none => []
  let backupCmd := buildBackupCommand backup hostname tags
  let successLimit :=
    match backup.spec.jobConfig with
    | some jc => jc.successfulJobsHistoryLimit.getD 3
    | none => 3
  let failLimit :=
    match backup.spec.jobConfig with
    | some jc => jc.failedJobsHistoryLimit.getD 3
    | none => 3
  let backoffLimit :=
    match backup.spec.jobConfig with
    | some jc => jc.backoffLimit.getD 0
    | none => 0
  let activeDeadline :=
    match backup.spec.jobConfig with
    | some jc => jc.activeDeadlineSeconds.getD 3600
    | none => 3600
  let concurrencyPolicy :=
    match backup.spec.jobConfig with
    | some jc =>
      if jc.concurrencyPolicy = "Allow" then "Allow"
      else if jc.concurrencyPolicy = "Replace" then "Replace"
      else "Forbid"
    | none => "Forbid"
  let timeZone :=
    if backup.spec.timezone ≠ "" && backup.spec.timezone ≠ "UTC" then
      some backup.spec.timezone
    else none
  { name := "resticbackup-" ++ backup.name,
    namespaceName := backup.namespaceName,
    spec :=
      { schedule := backup.spec.schedule,
        suspend := backup.spec.suspend,
        concurrencyPolicy := concurrencyPolicy,
        successfulJobsHistoryLimit := successLimit,
        failedJobsHistoryLimit := failLimit,
        backoffLimit := backoffLimit,
        activeDeadlineSeconds := activeDeadline,
        timeZone := timeZone,
        image := resticImage,
        command := backupCmd,
        args := [],
        repositoryURL := repository.repositoryURL,
        credentialsSecretName := repository.credentialsSecretName,
        claimName := (backup.spec.sourcePVC).map PVCSource.claimName } }

/-- A write issued against the generated CronJob object. -/
inductive CronJobWrite where
  | createWrite (spec : CronJobSpecModel)
  | updateWrite (spec : CronJobSpecModel)
deriving DecidableEq, Repr

/-- Embedding of `ResticBackupReconciler.reconcileCronJob`
(resticbackup_controller.go, lines 187-227): build the desired CronJob,
look up the stored one by name; absent, issue a create; present, copy the
desired spec over the stored spec and issue an update — the source performs
no comparison between desired and stored specs before writing.  The result
is the list of writes issued and the stored spec afterwards. -/
def reconcileCronJob (backup : ResticBackup) (repository : ResticRepositoryInfo)
    (existing : Option CronJobSpecModel) : List CronJobWrite × CronJobSpecModel :=
  let cronJob := buildCronJob backup repository
  match existing with
  | none => ([CronJobWrite.createWrite cronJob.spec], cronJob.spec)
  | some _ => ([CronJobWrite.updateWrite cronJob.spec], cronJob.spec)

/-- Embedding of `RetentionSelector` (tags and hostname filters). -/
structure RetentionSelector where
  tags : List String
  hostname : String
deriving DecidableEq, Repr

/-- Embedding of `RetentionPolicy` (the keep rules; nil pointers are
`none`). -/
structure RetentionPolicy where
  keepLast : Option Int
  keepHourly : Option Int
  keepDaily : Option Int
  keepWeekly : Option Int
  keepMonthly : Option Int
  keepYearly : Option Int
deriving DecidableEq, Repr

/-- Embedding of `RetentionPolicyEntry` (selector plus keep rules). -/
structure RetentionPolicyEntry where
  selector : RetentionSelector
  retention : RetentionPolicy
deriving DecidableEq, Repr

/-- The `GlobalRetentionPolicySpec` fields the retention reconciler reads. -/
structure GlobalRetentionPolicySpec where
  repositoryRefName : String
  repositoryRefNamespace : String
  schedule : String
  policies : List RetentionPolicyEntry
  prune : Bool
  suspend : Bool
  jobConfig : Option JobConfiguration
deriving DecidableEq, Repr

/-- A `GlobalRetentionPolicy` resource: metadata plus spec. -/
structure GlobalRetentionPolicy where
  name : String
  namespaceName : String
  spec : GlobalRetentionPolicySpec
deriving DecidableEq, Repr

/-- One keep-rule append of `buildRetentionScript`: the flag and count are
appended only when the pointer is set and the value positive. -/
def appendKeep (cmd flag : String) : Option Int → String
  | some n => if n > 0 then cmd ++ flag ++ toString n else cmd
  | none => cmd

/-- The single `restic forget` invocation `buildRetentionScript` emits for
one policy entry: tag filters, hostname filter, then the positive keep
rules in source order. -/
def retentionForgetCommand (p : RetentionPolicyEntry) : String :=
  let cmd := "restic forget"
  let cmd := p.selector.tags.foldl (fun acc tag => acc ++ " --tag " ++ tag) cmd
  let cmd := if p.selector.hostname ≠ "" then cmd ++ " --host " ++ p.selector.hostname else cmd
  let cmd := appendKeep cmd " --keep-last " p.retention.keepLast
  let cmd := appendKeep cmd " --keep-hourly " p.retention.keepHourly
  let cmd := appendKeep cmd " --keep-daily " p.retention.keepDaily
  let cmd := appendKeep cmd " --keep-weekly " p.retention.keepWeekly
  let cmd := appendKeep cmd " --keep-monthly " p.retention.keepMonthly
  let cmd := appendKeep cmd " --keep-yearly " p.retention.keepYearly
  cmd

/-- The command list `buildRetentionScript` assembles (part_011, lines
1690-1747): a header, an echo plus one filtered forget per policy entry in
declaration order, the optional prune pair, and a footer; the Go code joins
these lines with a newline. -/
def retentionScriptCommands (policy : GlobalRetentionPolicy) : List String :=
  ["set -e", "echo 'Starting retention policy execution'"]
    ++ (policy.spec.policies.enum.foldr
        (fun ip acc =>
          ("echo 'Executing policy " ++ toString (ip.1 + 1) ++ "'")
            :: retentionForgetCommand ip.2 :: acc) [])
    ++ (if policy.spec.prune then ["echo 'Running prune'", "restic prune"] else [])
    ++ ["echo 'Retention policy execution completed'"]

/-- Embedding of `GlobalRetentionPolicyReconciler.buildRetentionScript`:
the shell script handed to the retention container. -/
def buildRetentionScript (policy : GlobalRetentionPolicy) : String :=
  String.intercalate "\n" (retentionScriptCommands policy)

/-- Embedding of `GlobalRetentionPolicyReconciler.buildCronJob` (part_011,
lines 1548-1688): deterministic name `globalretention-<name>`, fixed image,
`/bin/sh -c <script>` invocation, Forbid concurrency, 3/3 history, 0
backoff and a 7200s deadline by default, no timezone handling. -/
def buildRetentionCronJob (policy : GlobalRetentionPolicy)
    (repository : ResticRepositoryInfo) : CronJobModel :=
  let script := buildRetentionScript policy
  let successLimit :=
    match policy.spec.jobConfig with
    | some jc => jc.successfulJobsHistoryLimit.getD 3
    | none => 3
  let failLimit :=
    match policy.spec.jobConfig with
    | some jc => jc.failedJobsHistoryLimit.getD 3
    | none => 3
  let backoffLimit :=
    match policy.spec.jobConfig with
    | some jc => jc.backoffLimit.getD 0
    | none => 0
  let activeDeadline :=
    match policy.spec.jobConfig with
    | some jc => jc.activeDeadlineSeconds.getD 7200
    | none => 7200
  { name := "globalretention-" ++ policy.name,
    namespaceName := policy.namespaceName,
    spec :=
      { schedule := policy.spec.schedule,
        suspend := policy.spec.suspend,
        concurrencyPolicy := "Forbid",
        successfulJobsHistoryLimit := successLimit,
        failedJobsHistoryLimit := failLimit,
        backoffLimit := backoffLimit,
        activeDeadlineSeconds := activeDeadline,
        timeZone := none,
        image := "ghcr.io/restic/restic:0.18.0",
        command := ["/bin/sh", "-c"],
        args := [script],
        repositoryURL := repository.repositoryURL,
        credentialsSecretName := repository.credentialsSecretName,
        claimName := none } }

/-- Embedding of `GlobalRetentionPolicyReconciler.reconcileCronJob`
(part_011, lines 1506-1546): the same unconditional create-or-update as the
backup reconciler — a stored CronJob always receives an update write with
the freshly built spec, with no difference check. -/
def reconcileRetentionCronJob (policy : GlobalRetentionPolicy)
    (repository : ResticRepositoryInfo)
    (existing : Option CronJobSpecModel) : List CronJobWrite × CronJobSpecModel :=
  let cronJob := buildRetentionCronJob policy repository
  match existing with
  | none => ([CronJobWrite.createWrite cronJob.spec], cronJob.spec)
  | some _ => ([CronJobWrite.updateWrite cronJob.spec], cronJob.spec)

/-- Modelled from the spec: the cron library the controllers call
(`github.com/robfig/cron/v3`, configured as
`cron.NewParser(cron.Minute | cron.Hour | cron.Dom | cron.Month | cron.Dow)`)
is an external dependency whose sources are not part of this repository.
Per the spec it parses "5-field, minute-granularity" expressions.  A parsed
schedule is the set of admissible values for each of the five fields, with
the day-of-month and day-of-week star markers needed for the standard
either-matches rule. -/
structure CronSchedule where
  minutes : List Nat
  hours : List Nat
  dom : List Nat
  months : List Nat
  dow : List Nat
  domStar : Bool
  dowStar : Bool
deriving DecidableEq, Repr

/-- Structural split of a character list on a separator character,
mirroring `strings.Split` for single-character separators. -/
def splitOnChar (sep : Char) (cs : List Char) : List (List Char) :=
  cs.foldr
    (fun c acc =>
      match acc with
      | [] => [[c]]
      | a :: rest => if c = sep then [] :: a :: rest else (c :: a) :: rest)
    [[]]

/-- Split of a string on a separator character. -/
def splitString (s : String) (sep : Char) : List String :=
  (splitOnChar sep s.toList).map List.asString

/-- Modelled from the spec: numeric literal of one cron token. -/
def cronNumber (s : String) : Option Nat :=
  if s ≠ "" && s.toList.all Char.isDigit then some (digitsToNat s.toList) else none

/-- Modelled from the spec: values lo, lo+step, ... up to hi. -/
def cronExpand (lo hi step : Nat) : List Nat :=
  if step = 0 then []
  else (List.range ((hi - lo) / step + 1)).map fun k => lo + k * step

/-- Modelled from the spec: one comma-separated cron range — `*`, `N`,
`A-B`, each optionally followed by `/step` (a stepped single value runs to
the field maximum) — validated against the field bounds. -/
def cronRange (s : String) (lo hi : Nat) : Option (List Nat) :=
  let parts := splitString s '/' 
  let parseBase : String → Bool → Option (Nat × Nat) := fun base hasStep =>
    if base = "*" then some (lo, hi)
    else
      match splitString base '-' with
      | [a] =>
        match cronNumber a with
        | some av => some (av, if hasStep then hi else av)
        | none => none
      | [a, b] =>
        match cronNumber a, cronNumber b with
        | some av, some bv => some (av, bv)
        | _, _ => none
      | _ => none
  match parts with
  | [base] =>
    match parseBase base false with
    | some (a, b) => if lo ≤ a && a ≤ b && b ≤ hi then some (cronExpand a b 1) else none
    | none => none
  | [base, step] =>
    match parseBase base true, cronNumber step with
    | some (a, b), some st =>
      if lo ≤ a && a ≤ b && b ≤ hi && st > 0 then some (cronExpand a b st) else none
    | _, _ => none
  | _ => none

/-- Modelled from the spec: a whole cron field, a comma-separated list of
ranges. -/
def cronField (s : String) (lo hi : Nat) : Option (List Nat) :=
  (splitString s ',').foldr
    (fun part acc =>
      match cronRange part lo hi, acc with
      | some vs, some rest => some (vs ++ rest)
      | _, _ => none)
    (some [])

/-- Modelled from the spec: parse a 5-field minute-granularity cron
expression (minute 0-59, hour 0-23, day-of-month 1-31, month 1-12,
day-of-week 0-6); any other shape yields no schedule. -/
def parseCronScheduleSpec (s : String) : Option CronSchedule :=
  match (splitString s ' ').filter (fun f => f ≠ "") with
  | [mi, h, dm, mo, dw] =>
    match cronField mi 0 59, cronField h 0 23, cronField dm 1 31,
        cronField mo 1 12, cronField dw 0 6 with
    | some mis, some hs, some dms, some mos, some dws =>
      some { minutes := mis, hours := hs, dom := dms, months := mos, dow := dws,
             domStar := dm = "*", dowStar := dw = "*" }
    | _, _, _, _, _ => none
  | _ => none

/-- Proleptic Gregorian civil date (year, month, day) of a day count since
1970-01-01. -/
def civilFromDays (days : Nat) : Nat × Nat × Nat :=
  let z := days + 719468
  let era := z / 146097
  let doe := z % 146097
  let yoe := (doe - doe / 1460 + doe / 36524 - doe / 146096) / 365
  let y := yoe + era * 400
  let doy := doe - (365 * yoe + yoe / 4 - yoe / 100)
  let mp := (5 * doy + 2) / 153
  let d := doy - (153 * mp + 2) / 5 + 1
  let m := if mp < 10 then mp + 3 else mp - 9
  ((if m ≤ 2 then y + 1 else y), m, d)

/-- Modelled from the spec: whether the minute instant `t` (minutes since
the 1970-01-01 00:00 UTC epoch) satisfies a cron schedule; day-of-month and
day-of-week combine with the standard either-matches rule when both are
restricted. -/
def cronMatches (sch : CronSchedule) (t : Nat) : Bool :=
  let days := t / 1440
  let minuteOfDay := t % 1440
  let mm := minuteOfDay % 60
  let hh := minuteOfDay / 60
  let ymd := civilFromDays days
  let dw := (days + 4) % 7
  sch.minutes.contains mm && sch.hours.contains hh && sch.months.contains ymd.2.1 &&
    (if sch.domStar || sch.dowStar then
      sch.dom.contains ymd.2.2 && sch.dow.contains dw
    else
      sch.dom.contains ymd.2.2 || sch.dow.contains dw)

/-- Modelled from the spec: bounded forward search for the next matching
minute. -/
def cronNextAux (sch : CronSchedule) : Nat → Nat → Nat
  | 0, _ => 0
  | fuel + 1, c => if cronMatches sch c then c else cronNextAux sch fuel (c + 1)

/-- Modelled from the spec: the first matching minute strictly after `t`;
like the library's `Next`, the search is bounded (about five years) and
returns the zero instant when nothing matches. -/
def cronNext (sch : CronSchedule) (t : Nat) : Nat :=
  cronNextAux sch (5 * 366 * 1440) (t + 1)

/-- The schedule-to-next-instant computation shared verbatim by
`ResticBackupReconciler.calculateNextBackup` (resticbackup_controller.go,
lines 515-524) and `GlobalRetentionPolicyReconciler.calculateNextRun`
(part_011, lines 1749-1758): parse the 5-field expression, and on success
return the next firing instant after `now`; a parse failure returns nil. -/
def nextRunFromSchedule (schedule : String) (now : Nat) : Option Nat :=
  match parseCronScheduleSpec schedule with
  | none => none
  | some sch => some (cronNext sch now)

/-- Embedding of `ResticBackupReconciler.calculateNextBackup`. -/
def calculateNextBackup (backup : ResticBackup) (now : Nat) : Option Nat :=
  nextRunFromSchedule backup.spec.schedule now

/-- Embedding of `GlobalRetentionPolicyReconciler.calculateNextRun`. -/
def calculateNextRun (policy : GlobalRetentionPolicy) (now : Nat) : Option Nat :=
  nextRunFromSchedule policy.spec.schedule now

/-- The `ResticBackupStatus` fields touched by the success tail of the
backup reconcile. -/
structure BackupStatus where
  conditions : List Condition
  nextBackup : Option Nat
  observedGeneration : Int
deriving DecidableEq, Repr

/-- The guarded status assignment of the reconcilers
(`if nextBackup != nil { status.NextBackup = nextBackup }`): a nil
computation leaves the stored value untouched. -/
def applyNextBackup (computed stored : Option Nat) : Option Nat :=
  match computed with
  | some v => some v
  | none => stored

/-- Embedding of the success tail of `ResticBackupReconciler.Reconcile`
(resticbackup_controller.go, lines 131-148): compute the next firing
instant, keep the stored value when the expression does not parse, set
`Ready=True/BackupConfigured` and the observed generation, and requeue
after five minutes. -/
def backupStatusTail (now generation : Int) (nowMinute : Nat) (backup : ResticBackup)
    (status : BackupStatus) : BackupStatus × Int :=
  let nextBackup := calculateNextBackup backup nowMinute
  let conds := SetCondition now status.conditions
    (ReadyCondition now "BackupConfigured" "Backup CronJob is configured and running")
  ({ conditions := conds,
     nextBackup := applyNextBackup nextBackup status.nextBackup,
     observedGeneration := generation }, 5 * Minute)

/-- A concrete `ResticBackup` used to exercise the theorems below. -/
def sampleBackup : ResticBackup :=
  { name := "db-backup",
    namespaceName := "apps",
    spec :=
      { repositoryRefName := "main-repo",
        repositoryRefNamespace := "",
        schedule := "0 2 * * *",
        timezone := "",
        suspend := false,
        sourcePVC := some { claimName := "db-data", paths := ["/data"], excludes := ["*.tmp"] },
        restic := some { image := "", hostname := "", tags := ["db"], extraArgs := [] },
        jobConfig := none } }

/-- A concrete `ResticBackup` carrying an unparseable schedule. -/
def sampleBackupInvalidSchedule : ResticBackup :=
  { sampleBackup with spec := { sampleBackup.spec with schedule := "invalid-schedule" } }

/-- A concrete repository info block used to exercise the theorems below. -/
def sampleRepositoryInfo : ResticRepositoryInfo :=
  { repositoryURL := "s3:https://s3.example.com/bucket", credentialsSecretName := "restic-creds" }

/-- A concrete `GlobalRetentionPolicy` with two entries and prune enabled. -/
def samplePolicy : GlobalRetentionPolicy :=
  { name := "cleanup",
    namespaceName := "apps",
    spec :=
      { repositoryRefName := "main-repo",
        repositoryRefNamespace := "",
        schedule := "0 3 * * *",
        policies :=
          [{ selector := { tags := ["a"], hostname := "" },
             retention := { keepLast := some 5, keepHourly := none, keepDaily := none,
                            keepWeekly := none, keepMonthly := none, keepYearly := none } },
           { selector := { tags := ["b"], hostname := "" },
             retention := { keepLast := none, keepHourly := none, keepDaily := some 7,
                            keepWeekly := none, keepMonthly := none, keepYearly := none } }],
        prune := true,
        suspend := false,
        jobConfig := none } }

/-- A check-failure message carrying a 45-minute-old lock, in the format
restic prints and `lockAgeRegex` expects. -/
def lockedErrorMessage45 : String :=
  "Fatal: unable to open repository: repository is already locked by PID 1234, lock was created at 2026-01-01 10:00:00 (45m0s ago)"

/-- A check-failure message reporting a lock without any parseable age. -/
def lockedErrorMessageNoAge : String :=
  "Fatal: unable to create lock in backend: repository is already locked exclusively by PID 42 on host worker-1"

/-- Repository reconcile environment: check fails with the 45-minute lock
message and the subsequent unlock fails. -/
def unlockFailureEnv : RepoEnv :=
  { credsErr := none, checkErr := some lockedErrorMessage45,
    unlockErr := some "unlock failed: connection reset", recheckErr := none,
    initErr := none, statsResult := none }

/-- Repository reconcile environment: check fails with the 45-minute lock
message, unlock succeeds, the retried check succeeds, statistics fail. -/
def staleLockRecoveryEnv : RepoEnv :=
  { credsErr := none, checkErr := some lockedErrorMessage45, unlockErr := none,
    recheckErr := none, initErr := none, statsResult := none }

/-- Repository reconcile environment: everything succeeds except the
statistics query. -/
def statsFailureEnv : RepoEnv :=
  { credsErr := none, checkErr := none, unlockErr := none, recheckErr := none,
    initErr := none, statsResult := none }

/-- Repository reconcile environment: check fails with the age-less lock
message. -/
def agelessLockEnv : RepoEnv :=
  { credsErr := none, checkErr := some lockedErrorMessageNoAge, unlockErr := none,
    recheckErr := none, initErr := none, statsResult := none }

/-- The empty repository status. -/
def emptyRepoStatus : RepoStatus :=
  { conditions := [], observedGeneration := 0, statistics := none }

/-- A concrete restore spec used to exercise the theorems below. -/
def sampleRestoreSpec : ResticRestoreSpec :=
  { backupRefName := "db-backup", backupRefNamespace := "", snapshotID := "",
    snapshotSelector := none, includePaths := [], excludePaths := [], verify := false }

/-- A restore status sitting in the InProgress phase with a job reference. -/
def inProgressRestoreStatus : RestoreStatus :=
  { phase := RestorePhase.inProgress, conditions := [], startTime := some 0,
    completionTime := none, restoredSnapshot := "latest",
    jobRef := some { name := "resticrestore-r1", namespaceName := "apps" } }

/-- A restore status sitting in the Pending phase. -/
def pendingRestoreStatus : RestoreStatus :=
  { phase := RestorePhase.pending, conditions := [], startTime := none,
    completionTime := none, restoredSnapshot := "", jobRef := none }

/-- Restore environment: nothing is deleted, the finalizer is present, the
backup reference does not resolve. -/
def danglingBackupEnv : RestoreEnv :=
  { deletionRequested := false, hasFinalizer := true,
    backupErr := some "failed to get backup: resticbackups \"db-backup\" not found",
    repoErr := none, createResult := CreateJobResult.ok, jobFound := false,
    jobSucceeded := 0, jobFailed := 0 }

/-- Restore environment: references resolve, the referenced job reports one
success. -/
def jobSucceededEnv : RestoreEnv :=
  { deletionRequested := false, hasFinalizer := true, backupErr := none,
    repoErr := none, createResult := CreateJobResult.ok, jobFound := true,
    jobSucceeded := 1, jobFailed := 0 }

/-- The transition time `SetCondition` stores for the incoming condition:
the previously stored one when the first condition of that type carries the
same status, the current time otherwise. -/
def transitionTimeAfter (now : Int) (l : List Condition) (c : Condition) : Int :=
  match GetCondition l c.type with
  | some old => if old.status = c.status then old.lastTransitionTime else now
  | none => now

/-- Looking up the type just written by `SetCondition` always returns the
incoming condition, stamped with the stored transition time when the first
stored condition of that type carries the same status and with `now`
otherwise. -/
theorem getCondition_setCondition (now : Int) (l : List Condition) (c : Condition) :
    GetCondition (SetCondition now l c) c.type =
      some { c with lastTransitionTime := transitionTimeAfter now l c } := by
  induction l with
  | nil => simp [SetCondition, GetCondition, transitionTimeAfter]
  | cons a rest ih =>
    by_cases h : a.type = c.type
    · by_cases hs : a.status = c.status <;>
        simp [SetCondition, GetCondition, transitionTimeAfter, h, hs]
    · simp [SetCondition, GetCondition, transitionTimeAfter, h, ih]

/-- The multiset of condition types after `SetCondition`: unchanged when
the type was present, extended by it at the end otherwise. -/
theorem setCondition_map_type (now : Int) (l : List Condition) (c : Condition) :
    (SetCondition now l c).map Condition.type =
      if c.type ∈ l.map Condition.type then l.map Condition.type
      else l.map Condition.type ++ [c.type] := by
  induction l with
  | nil => simp [SetCondition]
  | cons a rest ih =>
    by_cases h : a.type = c.type
    · by_cases hs : a.status = c.status <;> simp [SetCondition, h, hs]
    · have hne : ¬ c.type = a.type := fun hh => h hh.symm
      by_cases hm : c.type ∈ rest.map Condition.type <;>
        simp [SetCondition, h, hne, hm, ih]

/-- Weak form of `getCondition_setCondition` used for projections: the
written type resolves to the incoming condition at some transition time. -/
theorem exists_getCondition_setCondition (now : Int) (l : List Condition) (c : Condition) :
    ∃ t, GetCondition (SetCondition now l c) c.type =
      some { c with lastTransitionTime := t } := by
  exact ⟨_, getCondition_setCondition now l c⟩

/-- C4: for every condition list and every condition written through
`SetCondition`, an existing condition of the same type with the same status
value keeps its stored `lastTransitionTime` (reason/message-only edits never
touch it); a differing status value or a new type stamps the current time;
and a list with pairwise distinct types keeps its types pairwise distinct
(at most one condition per type). -/
theorem setCondition_transition_time_stability (now : Int) (conds : List Condition)
    (condition : Condition) (hnd : (conds.map Condition.type).Nodup) :
    ((SetCondition now conds condition).map Condition.type).Nodup ∧
    GetCondition (SetCondition now conds condition) condition.type =
      some { condition with
             lastTransitionTime := transitionTimeAfter now conds condition } := by
  refine ⟨?_, getCondition_setCondition now conds condition⟩
  rw [setCondition_map_type]
  split
  · exact hnd
  · next hmem =>
    refine hnd.append (List.nodup_singleton _) ?_
    intro x hx hxe
    rw [List.mem_singleton] at hxe
    exact hmem (hxe ▸ hx)

/-- Witness for C4 at a concrete input: rewriting a `Ready=False` condition
with a new reason keeps the stored transition time 5, and the type list
stays duplicate-free. -/
theorem setCondition_transition_time_stability_witness :
    ((SetCondition 10
        [{ type := "Ready", status := ConditionStatus.isFalse, reason := "r0",
           message := "m0", lastTransitionTime := 5 }]
        { type := "Ready", status := ConditionStatus.isFalse, reason := "r1",
          message := "m1", lastTransitionTime := 0 }).map Condition.type).Nodup ∧
    GetCondition (SetCondition 10
        [{ type := "Ready", status := ConditionStatus.isFalse, reason := "r0",
           message := "m0", lastTransitionTime := 5 }]
        { type := "Ready", status := ConditionStatus.isFalse, reason := "r1",
          message := "m1", lastTransitionTime := 0 }) "Ready" =
      some { type := "Ready", status := ConditionStatus.isFalse, reason := "r1",
             message := "m1", lastTransitionTime := 5 } := by
  have h := setCondition_transition_time_stability 10
    [{ type := "Ready", status := ConditionStatus.isFalse, reason := "r0",
       message := "m0", lastTransitionTime := 5 }]
    { type := "Ready", status := ConditionStatus.isFalse, reason := "r1",
      message := "m1", lastTransitionTime := 0 }
    (by decide)
  exact ⟨h.1, by decide⟩

/-- A character list is a prefix of itself followed by anything. -/
theorem isPrefixOf_append_self (l t : List Char) : l.isPrefixOf (l ++ t) = true := by
  induction l with
  | nil => simp [List.isPrefixOf]
  | cons a as ih => simp [List.isPrefixOf, ih]

/-- A prefix of an appended list is a prefix of the left part, or extends
it. -/
theorem isPrefixOf_append_cases (l1 l2 t : List Char)
    (h : l1.isPrefixOf (l2 ++ t) = true) :
    l1.isPrefixOf l2 = true ∨ l2.isPrefixOf l1 = true := by
  induction l2 generalizing l1 with
  | nil => exact Or.inr (by simp [List.isPrefixOf])
  | cons b bs ih =>
    cases l1 with
    | nil => exact Or.inl (by simp [List.isPrefixOf])
    | cons a as =>
      simp only [List.cons_append, List.isPrefixOf, Bool.and_eq_true] at h
      have hab : a = b := by simpa using h.1
      rcases ih as h.2 with hl | hr
      · exact Or.inl (by simp [List.isPrefixOf, hab, hl])
      · exact Or.inr (by simp [List.isPrefixOf, hab, hr])

/-- The tag fold of `buildRetentionScript` only appends to its seed. -/
theorem tagsFoldl_append (tags : List String) (cmd : String) :
    ∃ u, tags.foldl (fun acc tag => acc ++ " --tag " ++ tag) cmd = cmd ++ u := by
  induction tags generalizing cmd with
  | nil => exact ⟨"", by simp⟩
  | cons tag ts ih =>
    obtain ⟨u, hu⟩ := ih (cmd ++ " --tag " ++ tag)
    refine ⟨" --tag " ++ tag ++ u, ?_⟩
    rw [List.foldl_cons, hu]
    rw [String.append_assoc, String.append_assoc, String.append_assoc]

/-- A keep-rule append of `buildRetentionScript` only appends to its seed. -/
theorem appendKeep_append (cmd flag : String) (o : Option Int) :
    ∃ u, appendKeep cmd flag o = cmd ++ u := by
  cases o with
  | none => exact ⟨"", by simp [appendKeep]⟩
  | some n =>
    by_cases h : n > 0
    · exact ⟨flag ++ toString n, by simp [appendKeep, h, String.append_assoc]⟩
    · exact ⟨"", by simp [appendKeep, h]⟩

/-- Composition of two append extensions. -/
theorem append_extension_trans (x y z : String) (h1 : ∃ u, y = x ++ u)
    (h2 : ∃ v, z = y ++ v) : ∃ w, z = x ++ w := by
  obtain ⟨u, hu⟩ := h1
  obtain ⟨v, hv⟩ := h2
  exact ⟨u ++ v, by rw [hv, hu, String.append_assoc]⟩

/-- Every forget command the script builder emits extends the literal
`"restic forget"`. -/
theorem retentionForgetCommand_append (p : RetentionPolicyEntry) :
    ∃ u, retentionForgetCommand p = "restic forget" ++ u := by
  have hhost : ∀ cmd : String, ∃ u,
      (if p.selector.hostname ≠ "" then cmd ++ " --host " ++ p.selector.hostname else cmd)
        = cmd ++ u := by
    intro cmd
    by_cases h : p.selector.hostname ≠ ""
    · exact ⟨" --host " ++ p.selector.hostname, by simp [h, String.append_assoc]⟩
    · exact ⟨"", by simp [h]⟩
  unfold retentionForgetCommand
  refine append_extension_trans _ _ _ ?_ (appendKeep_append _ _ _)
  refine append_extension_trans _ _ _ ?_ (appendKeep_append _ _ _)
  refine append_extension_trans _ _ _ ?_ (appendKeep_append _ _ _)
  refine append_extension_trans _ _ _ ?_ (appendKeep_append _ _ _)
  refine append_extension_trans _ _ _ ?_ (appendKeep_append _ _ _)
  refine append_extension_trans _ _ _ ?_ (appendKeep_append _ _ _)
  refine append_extension_trans _ _ _ ?_ (hhost _)
  exact tagsFoldl_append p.selector.tags "restic forget"

/-- Every emitted forget command starts with `"restic forget"`. -/
theorem retentionForgetCommand_isForget (p : RetentionPolicyEntry) :
    ("restic forget").toList.isPrefixOf (retentionForgetCommand p).toList = true := by
  obtain ⟨u, hu⟩ := retentionForgetCommand_append p
  rw [hu]
  show ("restic forget").data.isPrefixOf ("restic forget" ++ u).data = true
  rw [String.data_append]
  exact isPrefixOf_append_self _ _

/-- No emitted forget command is the prune invocation. -/
theorem retentionForgetCommand_ne_prune (p : RetentionPolicyEntry) :
    retentionForgetCommand p ≠ "restic prune" := by
  intro h
  have hp := retentionForgetCommand_isForget p
  rw [h] at hp
  exact absurd hp (by decide)

/-- The echo line in front of a policy entry (in the left-associated shape
the script builder produces) does not start with `"restic forget"` and is
not the prune invocation. -/
theorem echoLine_not_forget (s t : String) :
    (("restic forget").toList.isPrefixOf
        (("echo 'Executing policy " ++ s) ++ t).toList = false) ∧
    ("echo 'Executing policy " ++ s) ++ t ≠ "restic prune" := by
  have hdata : (("echo 'Executing policy " ++ s) ++ t).toList
      = ("echo 'Executing policy ").toList ++ (s.toList ++ t.toList) := by
    show (("echo 'Executing policy " ++ s) ++ t).data
        = ("echo 'Executing policy ").data ++ (s.data ++ t.data)
    rw [String.data_append, String.data_append, List.append_assoc]
  constructor
  · by_contra hb
    rw [Bool.not_eq_false, hdata] at hb
    rcases isPrefixOf_append_cases _ _ _ hb with h1 | h2
    · exact absurd h1 (by decide)
    · exact absurd h2 (by decide)
  · intro h
    have hl := congrArg String.toList h
    rw [hdata] at hl
    have h2 : (("echo 'Executing policy ").toList).isPrefixOf
        (("restic prune").toList) = true := by
      rw [← hl]
      exact isPrefixOf_append_self _ _
    exact absurd h2 (by decide)

/-- Filtering the per-entry block of the script for forget lines recovers
exactly the forget commands, in entry order. -/
theorem filter_forget_entries (l : List RetentionPolicyEntry) (n : Nat) :
    ((List.enumFrom n l).foldr
        (fun ip acc =>
          ("echo 'Executing policy " ++ toString (ip.1 + 1) ++ "'")
            :: retentionForgetCommand ip.2 :: acc) []).filter
      (fun line => ("restic forget").toList.isPrefixOf line.toList)
      = l.map retentionForgetCommand := by
  induction l generalizing n with
  | nil => simp [List.enumFrom]
  | cons p ps ih =>
    have he := (echoLine_not_forget (toString (n + 1)) "'").1
    have hf := retentionForgetCommand_isForget p
    simp at he hf
    simp [List.enumFrom, List.filter_cons, he, hf]
    simpa using ih (n + 1)

/-- The per-entry block of the script contains no prune invocation. -/
theorem entries_no_prune (l : List RetentionPolicyEntry) (n : Nat) :
    ((List.enumFrom n l).foldr
        (fun ip acc =>
          ("echo 'Executing policy " ++ toString (ip.1 + 1) ++ "'")
            :: retentionForgetCommand ip.2 :: acc) []).countP
      (fun line => line = "restic prune") = 0 := by
  induction l generalizing n with
  | nil => simp [List.enumFrom]
  | cons p ps ih =>
    have he := (echoLine_not_forget (toString (n + 1)) "'").2
    simp [List.enumFrom, List.countP_cons, he, retentionForgetCommand_ne_prune p]
    simpa using ih (n + 1)

/-- C7: for every RetentionPolicy, the generated cleanup script contains
exactly one filtered forget invocation per policy entry, in declaration
order — each built by `retentionForgetCommand` from that entry's tag and
host filters and only its positive keep rules — followed by exactly one
prune invocation precisely when the prune flag is set; with prune unset no
prune invocation appears anywhere in the script.  The third conjunct fixes
the position: the script splits into a prefix that carries all the forget
invocations and no prune line, then the prune block exactly when the flag
is set, then the closing echo — so every forget invocation precedes the
prune invocation. -/
theorem retention_script_structure (policy : GlobalRetentionPolicy) :
    (retentionScriptCommands policy).filter
        (fun line => ("restic forget").toList.isPrefixOf line.toList)
      = policy.spec.policies.map retentionForgetCommand ∧
    (retentionScriptCommands policy).countP (fun line => line = "restic prune")
      = (if policy.spec.prune then 1 else 0) ∧
    ∃ pre, retentionScriptCommands policy
        = pre ++ (if policy.spec.prune then ["echo 'Running prune'", "restic prune"]
            else []) ++ ["echo 'Retention policy execution completed'"] ∧
      pre.filter (fun line => ("restic forget").toList.isPrefixOf line.toList)
        = policy.spec.policies.map retentionForgetCommand ∧
      pre.countP (fun line => line = "restic prune") = 0 := by
  refine ⟨?_, ?_, ?_⟩
  · unfold retentionScriptCommands
    rw [List.filter_append, List.filter_append, List.filter_append]
    rw [show (List.enum policy.spec.policies) = List.enumFrom 0 policy.spec.policies from rfl]
    rw [filter_forget_entries]
    have h1 : (["set -e", "echo 'Starting retention policy execution'"].filter
        (fun line => ("restic forget").toList.isPrefixOf line.toList)) = [] := by decide
    have h2 : ((if policy.spec.prune then ["echo 'Running prune'", "restic prune"]
        else []).filter (fun line => ("restic forget").toList.isPrefixOf line.toList)) = [] := by
      by_cases hp : policy.spec.prune <;> simp [hp]
    have h3 : (["echo 'Retention policy execution completed'"].filter
        (fun line => ("restic forget").toList.isPrefixOf line.toList)) = [] := by decide
    rw [h1, h2, h3]
    simp
  · unfold retentionScriptCommands
    rw [List.countP_append, List.countP_append, List.countP_append]
    rw [show (List.enum policy.spec.policies) = List.enumFrom 0 policy.spec.policies from rfl]
    rw [entries_no_prune]
    have h1 : (["set -e", "echo 'Starting retention policy execution'"].countP
        (fun line => line = "restic prune")) = 0 := by decide
    have h2 : ((if policy.spec.prune then ["echo 'Running prune'", "restic prune"]
        else []).countP (fun line => line = "restic prune"))
        = (if policy.spec.prune then 1 else 0) := by
      by_cases hp : policy.spec.prune <;> simp [hp]
    have h3 : (["echo 'Retention policy execution completed'"].countP
        (fun line => line = "restic prune")) = 0 := by decide
    rw [h1, h2, h3]
    omega
  · refine ⟨["set -e", "echo 'Starting retention policy execution'"]
        ++ ((List.enumFrom 0 policy.spec.policies).foldr
            (fun ip acc =>
              ("echo 'Executing policy " ++ toString (ip.1 + 1) ++ "'")
                :: retentionForgetCommand ip.2 :: acc) []), ?_, ?_, ?_⟩
    · unfold retentionScriptCommands
      rw [show (List.enum policy.spec.policies)
          = List.enumFrom 0 policy.spec.policies from rfl]
    · rw [List.filter_append, filter_forget_entries]
      have h1 : (["set -e", "echo 'Starting retention policy execution'"].filter
          (fun line => ("restic forget").toList.isPrefixOf line.toList)) = [] := by decide
      rw [h1]
      simp
    · rw [List.countP_append, entries_no_prune]
      have h1 : (["set -e", "echo 'Starting retention policy execution'"].countP
          (fun line => line = "restic prune")) = 0 := by decide
      rw [h1]

/-- C1 counterexample: a second reconcile of an unchanged ScheduledBackup,
against a store that already holds exactly the desired descriptor spec,
still issues a write — the source updates unconditionally instead of
comparing desired and stored specs. -/
theorem reconcile_cronjob_counterexample :
    (reconcileCronJob sampleBackup sampleRepositoryInfo
        (some (buildCronJob sampleBackup sampleRepositoryInfo).spec)).1
      = [CronJobWrite.updateWrite (buildCronJob sampleBackup sampleRepositoryInfo).spec] ∧
    [CronJobWrite.updateWrite (buildCronJob sampleBackup sampleRepositoryInfo).spec]
      ≠ ([] : List CronJobWrite) := by
  exact ⟨rfl, by simp⟩

/-- C1 as amended: rebuilding the descriptor is deterministic, so a second
reconcile with an unchanged spec writes back a spec identical to the stored
one and the stored descriptor state is unchanged (state-level idempotence);
but the reconciler performs no diff-before-write — whenever the descriptor
already exists it issues exactly one unconditional update write, for the
ScheduledBackup and the RetentionPolicy reconciler alike. -/
theorem reconcile_cronjob_state_idempotent (b : ResticBackup) (r : ResticRepositoryInfo)
    (p : GlobalRetentionPolicy) (stored storedR : CronJobSpecModel)
    (hb : stored = (buildCronJob b r).spec)
    (hp : storedR = (buildRetentionCronJob p r).spec) :
    (reconcileCronJob b r (some stored)).2 = stored ∧
    (reconcileCronJob b r (some stored)).1 = [CronJobWrite.updateWrite stored] ∧
    (reconcileRetentionCronJob p r (some storedR)).2 = storedR ∧
    (reconcileRetentionCronJob p r (some storedR)).1
      = [CronJobWrite.updateWrite storedR] := by
  subst hb
  subst hp
  exact ⟨rfl, rfl, rfl, rfl⟩

/-- Witness for the amended C1 at concrete resources: the stored specs are
the ones a first reconcile deposited, and the second reconcile leaves them
unchanged while issuing one update write each. -/
theorem reconcile_cronjob_state_idempotent_witness :
    (reconcileCronJob sampleBackup sampleRepositoryInfo
        (some (buildCronJob sampleBackup sampleRepositoryInfo).spec)).2
      = (buildCronJob sampleBackup sampleRepositoryInfo).spec ∧
    (reconcileRetentionCronJob samplePolicy sampleRepositoryInfo
        (some (buildRetentionCronJob samplePolicy sampleRepositoryInfo).spec)).2
      = (buildRetentionCronJob samplePolicy sampleRepositoryInfo).spec := by
  have h := reconcile_cronjob_state_idempotent sampleBackup sampleRepositoryInfo
    samplePolicy (buildCronJob sampleBackup sampleRepositoryInfo).spec
    (buildRetentionCronJob samplePolicy sampleRepositoryInfo).spec rfl rfl
  exact ⟨h.1, h.2.2.1⟩

/-- The Pending handler always lands in InProgress or Failed. -/
theorem handlePending_phase (now : Int) (env : RestoreEnv) (name namespaceName : String)
    (spec : ResticRestoreSpec) (st : RestoreStatus) :
    (handlePending now env name namespaceName spec st).status.phase = RestorePhase.inProgress ∨
    (handlePending now env name namespaceName spec st).status.phase = RestorePhase.failed := by
  unfold handlePending
  cases env.backupErr with
  | some e => simp
  | none =>
    cases env.repoErr with
    | some e => simp
    | none =>
      cases env.createResult with
      | ok => simp
      | alreadyExists => simp
      | failed m => simp

/-- The InProgress handler completes, fails, or leaves the status alone. -/
theorem handleInProgress_phase (now : Int) (env : RestoreEnv) (st : RestoreStatus) :
    (handleInProgress now env st).status.phase = RestorePhase.completed ∨
    (handleInProgress now env st).status.phase = RestorePhase.failed ∨
    (handleInProgress now env st).status = st := by
  unfold handleInProgress
  cases st.jobRef with
  | none => simp
  | some ref =>
    by_cases hjf : env.jobFound
    · by_cases hs : env.jobSucceeded > 0
      · simp [hjf, hs]
      · by_cases hf : env.jobFailed > 0 <;> simp [hjf, hs, hf]
    · simp [hjf]

/-- C3: for every Restore and every reconcile step, the phase only moves
forward along Pending → InProgress → {Completed, Failed} (a dangling
reference may send Pending straight to Failed, the shortcut §4.3 of the
spec itself prescribes); no step sets the phase to an earlier value; and
Completed and Failed are terminal — reconciling a Restore in either phase
(outside deletion, with its finalizer in place) performs no action at all
and in particular no status write. -/
theorem restore_phase_monotonic (now : Int) (env : RestoreEnv) (name namespaceName : String)
    (spec : ResticRestoreSpec) (status : RestoreStatus) :
    forwardStep status.phase
      (reconcileResticRestore now env name namespaceName spec status).status.phase ∧
    phaseRank status.phase ≤
      phaseRank (reconcileResticRestore now env name namespaceName spec status).status.phase ∧
    ((status.phase = RestorePhase.completed ∨ status.phase = RestorePhase.failed) →
      env.deletionRequested = false → env.hasFinalizer = true →
      (reconcileResticRestore now env name namespaceName spec status).trace = [] ∧
      (reconcileResticRestore now env name namespaceName spec status).status = status) := by
  by_cases hdel : env.deletionRequested
  · by_cases hfin : env.hasFinalizer <;>
      simp [reconcileResticRestore, hdel, hfin, forwardStep]
  · cases hph : status.phase with
    | unset =>
      have hp := handlePending_phase now env name namespaceName spec
        { status with phase := RestorePhase.pending }
      refine ⟨?_, ?_, ?_⟩
      · rcases hp with h | h <;>
          simp [reconcileResticRestore, hdel, hph, forwardStep, h]
      · rcases hp with h | h <;>
          simp [reconcileResticRestore, hdel, hph, phaseRank, h]
      · intro hterm
        rcases hterm with h | h <;> exact absurd h (by simp)
    | pending =>
      have hp := handlePending_phase now env name namespaceName spec status
      refine ⟨?_, ?_, ?_⟩
      · rcases hp with h | h <;>
          simp [reconcileResticRestore, hdel, hph, forwardStep, h]
      · rcases hp with h | h <;>
          simp [reconcileResticRestore, hdel, hph, phaseRank, h]
      · intro hterm
        rcases hterm with h | h <;> exact absurd h (by simp)
    | inProgress =>
      have hp := handleInProgress_phase now env status
      refine ⟨?_, ?_, ?_⟩
      · rcases hp with h | h | h <;>
          simp [reconcileResticRestore, hdel, hph, forwardStep, h]
      · rcases hp with h | h | h <;>
          simp [reconcileResticRestore, hdel, hph, phaseRank, h]
      · intro hterm
        rcases hterm with h | h <;> exact absurd h (by simp)
    | completed =>
      by_cases hfin : env.hasFinalizer <;>
        simp [reconcileResticRestore, hdel, hph, hfin, forwardStep]
    | failed =>
      by_cases hfin : env.hasFinalizer <;>
        simp [reconcileResticRestore, hdel, hph, hfin, forwardStep]

/-- Witness for C3 at a concrete input: a completed Restore reconciled
again (no deletion, finalizer present) keeps its phase and produces no
action. -/
theorem restore_phase_monotonic_witness :
    forwardStep RestorePhase.completed
      (reconcileResticRestore 0 jobSucceededEnv "r1" "apps" sampleRestoreSpec
        { inProgressRestoreStatus with phase := RestorePhase.completed }).status.phase ∧
    (reconcileResticRestore 0 jobSucceededEnv "r1" "apps" sampleRestoreSpec
        { inProgressRestoreStatus with phase := RestorePhase.completed }).trace = [] := by
  have h := restore_phase_monotonic 0 jobSucceededEnv "r1" "apps" sampleRestoreSpec
    { inProgressRestoreStatus with phase := RestorePhase.completed }
  exact ⟨h.1, (h.2.2 (Or.inl rfl) rfl rfl).1⟩

/-- Writing a Ready-typed condition makes it retrievable with its status,
reason and message intact. -/
theorem getCondition_setCondition_ready (now : Int) (l : List Condition)
    (st : ConditionStatus) (r m : String) :
    ∃ c, GetCondition (SetCondition now l (NewCondition now "Ready" st r m)) "Ready"
        = some c ∧ c.status = st ∧ c.reason = r ∧ c.message = m := by
  obtain ⟨t, ht⟩ := exists_getCondition_setCondition now l (NewCondition now "Ready" st r m)
  exact ⟨_, ht, rfl, rfl, rfl⟩

/-- C5: for every Restore reconciled in phase InProgress (outside
deletion): a missing job reference or a vanished job fails the restore with
condition reason `JobNotFound`; a job reporting `succeeded > 0` completes
it with a completion time and `Ready=True`; otherwise a job reporting
`failed > 0` fails it with a completion time and `Ready=False`; and a job
reporting neither leaves the status untouched, performs no status write and
requeues after 10 seconds. -/
theorem restore_in_progress_transitions (now : Int) (env : RestoreEnv)
    (name namespaceName : String) (spec : ResticRestoreSpec) (status : RestoreStatus)
    (hph : status.phase = RestorePhase.inProgress)
    (hdel : env.deletionRequested = false) :
    ((status.jobRef = none ∨ env.jobFound = false) →
      (reconcileResticRestore now env name namespaceName spec status).status.phase
          = RestorePhase.failed ∧
      ∃ c, GetCondition
          (reconcileResticRestore now env name namespaceName spec status).status.conditions
          "Ready" = some c ∧ c.status = ConditionStatus.isFalse ∧ c.reason = "JobNotFound") ∧
    (status.jobRef ≠ none → env.jobFound = true → env.jobSucceeded > 0 →
      (reconcileResticRestore now env name namespaceName spec status).status.phase
          = RestorePhase.completed ∧
      (reconcileResticRestore now env name namespaceName spec status).status.completionTime
          = some now ∧
      ∃ c, GetCondition
          (reconcileResticRestore now env name namespaceName spec status).status.conditions
          "Ready" = some c ∧ c.status = ConditionStatus.isTrue ∧ c.reason = "RestoreCompleted") ∧
    (status.jobRef ≠ none → env.jobFound = true → env.jobSucceeded = 0 → env.jobFailed > 0 →
      (reconcileResticRestore now env name namespaceName spec status).status.phase
          = RestorePhase.failed ∧
      (reconcileResticRestore now env name namespaceName spec status).status.completionTime
          = some now ∧
      ∃ c, GetCondition
          (reconcileResticRestore now env name namespaceName spec status).status.conditions
          "Ready" = some c ∧ c.status = ConditionStatus.isFalse ∧ c.reason = "RestoreFailed") ∧
    (status.jobRef ≠ none → env.jobFound = true → env.jobSucceeded = 0 → env.jobFailed = 0 →
      (reconcileResticRestore now env name namespaceName spec status).status = status ∧
      (reconcileResticRestore now env name namespaceName spec status).requeueAfter
          = 10 * Second ∧
      countStatusWrites
        (reconcileResticRestore now env name namespaceName spec status).trace = 0) := by
  refine ⟨?_, ?_, ?_, ?_⟩
  · intro hmiss
    rcases hmiss with hjr | hjf
    · simp [reconcileResticRestore, handleInProgress, hdel, hph, hjr]
      obtain ⟨c, hc, hcs, hcr, _⟩ := getCondition_setCondition_ready now status.conditions
        ConditionStatus.isFalse "JobNotFound" "No job reference in status"
      exact ⟨c, hc, hcs, hcr⟩
    · cases hjr : status.jobRef with
      | none =>
        simp [reconcileResticRestore, handleInProgress, hdel, hph, hjr]
        obtain ⟨c, hc, hcs, hcr, _⟩ := getCondition_setCondition_ready now status.conditions
          ConditionStatus.isFalse "JobNotFound" "No job reference in status"
        exact ⟨c, hc, hcs, hcr⟩
      | some ref =>
        simp [reconcileResticRestore, handleInProgress, hdel, hph, hjr, hjf]
        obtain ⟨c, hc, hcs, hcr, _⟩ := getCondition_setCondition_ready now status.conditions
          ConditionStatus.isFalse "JobNotFound" "Restore job was not found"
        exact ⟨c, hc, hcs, hcr⟩
  · intro hjr hjf hs
    cases hjrv : status.jobRef with
    | none => exact absurd hjrv hjr
    | some ref =>
      simp [reconcileResticRestore, handleInProgress, hdel, hph, hjrv, hjf, hs]
      obtain ⟨c, hc, hcs, hcr, _⟩ := getCondition_setCondition_ready now status.conditions
        ConditionStatus.isTrue "RestoreCompleted" "Restore completed successfully"
      exact ⟨c, hc, hcs, hcr⟩
  · intro hjr hjf hs hf
    cases hjrv : status.jobRef with
    | none => exact absurd hjrv hjr
    | some ref =>
      simp [reconcileResticRestore, handleInProgress, hdel, hph, hjrv, hjf, hs, hf]
      obtain ⟨c, hc, hcs, hcr, _⟩ := getCondition_setCondition_ready now status.conditions
        ConditionStatus.isFalse "RestoreFailed" "Restore job failed"
      exact ⟨c, hc, hcs, hcr⟩
  · intro hjr hjf hs hf
    cases hjrv : status.jobRef with
    | none => exact absurd hjrv hjr
    | some ref =>
      by_cases hfin : env.hasFinalizer <;>
        simp [reconcileResticRestore, handleInProgress, countStatusWrites,
          hdel, hph, hjrv, hjf, hs, hf, hfin]

/-- Witness for C5 at a concrete input: an InProgress restore whose job
reports one success completes with a completion time. -/
theorem restore_in_progress_transitions_witness :
    (reconcileResticRestore 7 jobSucceededEnv "r1" "apps" sampleRestoreSpec
        inProgressRestoreStatus).status.phase = RestorePhase.completed ∧
    (reconcileResticRestore 7 jobSucceededEnv "r1" "apps" sampleRestoreSpec
        inProgressRestoreStatus).status.completionTime = some 7 := by
  have h := restore_in_progress_transitions 7 jobSucceededEnv "r1" "apps"
    sampleRestoreSpec inProgressRestoreStatus rfl rfl
  have h2 := h.2.1 (by simp [inProgressRestoreStatus]) rfl (by decide)
  exact ⟨h2.1, h2.2.1⟩

/-- C6: for every Restore reconciled in phase Pending (outside deletion)
whose backup reference — or, transitively, the repository reference through
the backup — does not resolve, the same reconcile sets the phase straight
to Failed and returns with no requeue. -/
theorem restore_dangling_reference_terminal (now : Int) (env : RestoreEnv)
    (name namespaceName : String) (spec : ResticRestoreSpec) (status : RestoreStatus)
    (hph : status.phase = RestorePhase.pending)
    (hdel : env.deletionRequested = false)
    (href : env.backupErr ≠ none ∨ (env.backupErr = none ∧ env.repoErr ≠ none)) :
    (reconcileResticRestore now env name namespaceName spec status).status.phase
        = RestorePhase.failed ∧
    (reconcileResticRestore now env name namespaceName spec status).requeueAfter = 0 := by
  rcases href with hb | ⟨hb, hr⟩
  · cases hbe : env.backupErr with
    | none => exact absurd hbe hb
    | some e => simp [reconcileResticRestore, handlePending, hdel, hph, hbe]
  · cases hre : env.repoErr with
    | none => exact absurd hre hr
    | some e => simp [reconcileResticRestore, handlePending, hdel, hph, hb, hre]

/-- Witness for C6 at a concrete input: a Pending restore with an
unresolvable backup reference goes straight to Failed without a requeue. -/
theorem restore_dangling_reference_terminal_witness :
    (reconcileResticRestore 0 danglingBackupEnv "r1" "apps" sampleRestoreSpec
        pendingRestoreStatus).status.phase = RestorePhase.failed ∧
    (reconcileResticRestore 0 danglingBackupEnv "r1" "apps" sampleRestoreSpec
        pendingRestoreStatus).requeueAfter = 0 := by
  exact restore_dangling_reference_terminal 0 danglingBackupEnv "r1" "apps"
    sampleRestoreSpec pendingRestoreStatus rfl rfl (Or.inl (by simp [danglingBackupEnv]))

/-- The success tail neither checks nor unlocks: its trace only extends the
accumulated actions with status writes and the stats call. -/
theorem counts_repoReadyPath (now generation : Int) (env : RepoEnv)
    (acts : List RepoAction) (status : RepoStatus) :
    countCheck (repoReadyPath now generation env acts status).trace = countCheck acts ∧
    countUnlock (repoReadyPath now generation env acts status).trace = countUnlock acts := by
  unfold repoReadyPath
  cases env.statsResult <;>
    simp [countCheck, countUnlock, List.countP_append, List.countP_cons]

/-- The init fallback neither checks nor unlocks. -/
theorem counts_repoInitPath (now generation : Int) (env : RepoEnv)
    (acts : List RepoAction) (status : RepoStatus) :
    countCheck (repoInitPath now generation env acts status).trace = countCheck acts ∧
    countUnlock (repoInitPath now generation env acts status).trace = countUnlock acts := by
  unfold repoInitPath
  cases env.initErr with
  | some e => simp [countCheck, countUnlock, List.countP_append, List.countP_cons]
  | none =>
    have h := counts_repoReadyPath now generation env (acts ++ [RepoAction.init]) status
    simpa [countCheck, countUnlock, List.countP_append, List.countP_cons] using h

/-- Below-threshold lock handling: a parsed age strictly below the
threshold triggers no unlock, a single check, the short requeue, and a
`Ready=False/RepositoryLocked` condition carrying the parsed age and
threshold in its message. -/
theorem locked_below_threshold (staleLockThreshold now generation : Int) (env : RepoEnv)
    (status : RepoStatus) (errStr : String)
    (hcreds : env.credsErr = none)
    (hcheck : env.checkErr = some errStr)
    (hlock : goContains errStr "repository is already locked" = true)
    (hlt : parseLockAge errStr < getStaleLockThreshold staleLockThreshold) :
    countUnlock
        (reconcileResticRepository staleLockThreshold now generation env status).trace = 0 ∧
    countCheck
        (reconcileResticRepository staleLockThreshold now generation env status).trace = 1 ∧
    (reconcileResticRepository staleLockThreshold now generation env status).requeueAfter
        = errorRequeueInterval ∧
    ∃ c, GetCondition
        (reconcileResticRepository staleLockThreshold now generation env
          status).status.conditions "Ready" = some c ∧
      c.status = ConditionStatus.isFalse ∧ c.reason = "RepositoryLocked" ∧
      c.message = lockAgeMessage (parseLockAge errStr)
        (getStaleLockThreshold staleLockThreshold) := by
  have hnge : ¬ parseLockAge errStr ≥ getStaleLockThreshold staleLockThreshold :=
    not_le.mpr hlt
  refine ⟨?_, ?_, ?_, ?_⟩
  · simp [reconcileResticRepository, hcreds, hcheck, hlock, if_neg hnge,
      countUnlock, List.countP_cons]
  · simp [reconcileResticRepository, hcreds, hcheck, hlock, if_neg hnge,
      countCheck, List.countP_cons]
  · simp [reconcileResticRepository, hcreds, hcheck, hlock, if_neg hnge]
  · simp only [reconcileResticRepository, hcreds, hcheck, hlock, if_neg hnge]
    obtain ⟨c, hc, hcs, hcr, hcm⟩ := getCondition_setCondition_ready now status.conditions
      ConditionStatus.isFalse "RepositoryLocked"
      (lockAgeMessage (parseLockAge errStr) (getStaleLockThreshold staleLockThreshold))
    exact ⟨c, by simpa [hlock, if_neg hnge] using hc, hcs, hcr, hcm⟩

/-- C2 as amended: when check fails with a repository-locked error, a
parsed age at or above the threshold (the boundary case age = threshold is
stale) triggers exactly one unlock; if the unlock succeeds, exactly one
retry of check follows; if the unlock fails, no retry occurs, `Ready` is
set False with reason `UnlockFailed`, and the reconcile requeues after the
short interval.  An age strictly below the threshold triggers no unlock:
`Ready` is set False with reason `RepositoryLocked`, carrying the parsed
age and threshold in its message, and the reconcile requeues after the
short (30s) interval. -/
theorem stale_lock_handling (staleLockThreshold now generation : Int) (env : RepoEnv)
    (status : RepoStatus) (errStr : String)
    (hcreds : env.credsErr = none)
    (hcheck : env.checkErr = some errStr)
    (hlock : goContains errStr "repository is already locked" = true) :
    (parseLockAge errStr ≥ getStaleLockThreshold staleLockThreshold →
      countUnlock
          (reconcileResticRepository staleLockThreshold now generation env status).trace = 1 ∧
      (env.unlockErr = none →
        countCheck
          (reconcileResticRepository staleLockThreshold now generation env status).trace = 2) ∧
      (env.unlockErr ≠ none →
        countCheck
            (reconcileResticRepository staleLockThreshold now generation env status).trace
          = 1 ∧
        (reconcileResticRepository staleLockThreshold now generation env status).requeueAfter
          = errorRequeueInterval ∧
        ∃ c, GetCondition
            (reconcileResticRepository staleLockThreshold now generation env
              status).status.conditions "Ready" = some c ∧
          c.status = ConditionStatus.isFalse ∧ c.reason = "UnlockFailed")) ∧
    (parseLockAge errStr < getStaleLockThreshold staleLockThreshold →
      countUnlock
          (reconcileResticRepository staleLockThreshold now generation env status).trace = 0 ∧
      countCheck
          (reconcileResticRepository staleLockThreshold now generation env status).trace = 1 ∧
      (reconcileResticRepository staleLockThreshold now generation env status).requeueAfter
          = errorRequeueInterval ∧
      ∃ c, GetCondition
          (reconcileResticRepository staleLockThreshold now generation env
            status).status.conditions "Ready" = some c ∧
        c.status = ConditionStatus.isFalse ∧ c.reason = "RepositoryLocked" ∧
        c.message = lockAgeMessage (parseLockAge errStr)
          (getStaleLockThreshold staleLockThreshold)) := by
  constructor
  · intro hge
    cases hu : env.unlockErr with
    | none =>
      cases hre : env.recheckErr with
      | none =>
        have h := counts_repoReadyPath now generation env
          [RepoAction.check, RepoAction.unlock, RepoAction.check] status
        have hrw : reconcileResticRepository staleLockThreshold now generation env status
            = repoReadyPath now generation env
              [RepoAction.check, RepoAction.unlock, RepoAction.check] status := by
          simp [reconcileResticRepository, hcreds, hcheck, hlock, hu, hre, if_pos hge]
        refine ⟨?_, fun _ => ?_, fun hne => absurd rfl hne⟩
        · rw [hrw, h.2]; decide
        · rw [hrw, h.1]; decide
      | some re =>
        have h := counts_repoInitPath now generation env
          [RepoAction.check, RepoAction.unlock, RepoAction.check] status
        have hrw : reconcileResticRepository staleLockThreshold now generation env status
            = repoInitPath now generation env
              [RepoAction.check, RepoAction.unlock, RepoAction.check] status := by
          simp [reconcileResticRepository, hcreds, hcheck, hlock, hu, hre, if_pos hge]
        refine ⟨?_, fun _ => ?_, fun hne => absurd rfl hne⟩
        · rw [hrw, h.2]; decide
        · rw [hrw, h.1]; decide
    | some u =>
      refine ⟨?_, fun hn => absurd hn (by simp [hu]), fun _ => ⟨?_, ?_, ?_⟩⟩
      · simp [reconcileResticRepository, hcreds, hcheck, hlock, hu, if_pos hge,
          countUnlock, List.countP_cons]
      · simp [reconcileResticRepository, hcreds, hcheck, hlock, hu, if_pos hge,
          countCheck, List.countP_cons]
      · simp [reconcileResticRepository, hcreds, hcheck, hlock, hu, if_pos hge]
      · simp only [reconcileResticRepository, hcreds, hcheck, hlock, hu, if_pos hge]
        obtain ⟨c, hc, hcs, hcr, _⟩ := getCondition_setCondition_ready now status.conditions
          ConditionStatus.isFalse "UnlockFailed" u
        exact ⟨c, by simpa [hlock, if_pos hge] using hc, hcs, hcr⟩
  · intro hlt
    exact locked_below_threshold staleLockThreshold now generation env status errStr
      hcreds hcheck hlock hlt

/-- Witness for the amended C2 at a concrete input: a 45-minute lock age
against the default 30-minute threshold triggers exactly one unlock
followed by exactly one retry of check. -/
theorem stale_lock_handling_witness :
    countUnlock (reconcileResticRepository 0 0 1 staleLockRecoveryEnv emptyRepoStatus).trace
      = 1 ∧
    countCheck (reconcileResticRepository 0 0 1 staleLockRecoveryEnv emptyRepoStatus).trace
      = 2 := by
  have h := stale_lock_handling 0 0 1 staleLockRecoveryEnv emptyRepoStatus
    lockedErrorMessage45 rfl rfl (by decide)
  have h2 := h.1 (by decide)
  exact ⟨h2.1, h2.2.1 rfl⟩

/-- C2 counterexample: with the same 45-minute stale lock but a failing
unlock call, the claim's "exactly one retry of check" does not hold — the
reconcile performs no retry (one check in total), so the claim as stated is
false on the code; the unlock-failure path is the part the amendment adds. -/
theorem stale_lock_no_retry_counterexample :
    goContains lockedErrorMessage45 "repository is already locked" = true ∧
    parseLockAge lockedErrorMessage45 = 2700000000000 ∧
    parseLockAge lockedErrorMessage45 ≥ getStaleLockThreshold 0 ∧
    countUnlock (reconcileResticRepository 0 0 1 unlockFailureEnv emptyRepoStatus).trace
      = 1 ∧
    countCheck (reconcileResticRepository 0 0 1 unlockFailureEnv emptyRepoStatus).trace
      = 1 := by
  exact ⟨by decide, by decide, by decide, by decide, by decide⟩

/-- Shape of the success tail: the `Ready=True/RepositoryAccessible` status
write strictly precedes the stats call; a stats failure adds nothing after
it and the written snapshot is the final status; the requeue is the long
interval; statistics carried over from the input status until the refresh. -/
theorem repoReadyPath_ready (now generation : Int) (env : RepoEnv)
    (acts : List RepoAction) (status : RepoStatus) :
    ∃ s1 rest,
      (repoReadyPath now generation env acts status).trace
        = acts ++ [RepoAction.statusUpdate s1, RepoAction.stats] ++ rest ∧
      (∃ c, GetCondition s1.conditions "Ready" = some c ∧
        c.status = ConditionStatus.isTrue ∧ c.reason = "RepositoryAccessible" ∧
        c.message = "Repository is initialized and accessible") ∧
      s1.observedGeneration = generation ∧
      s1.statistics = status.statistics ∧
      (repoReadyPath now generation env acts status).requeueAfter = defaultRequeueInterval ∧
      (env.statsResult = none →
        rest = [] ∧ (repoReadyPath now generation env acts status).status = s1) := by
  obtain ⟨c, hc, hcs, hcr, hcm⟩ := getCondition_setCondition_ready now status.conditions
    ConditionStatus.isTrue "RepositoryAccessible" "Repository is initialized and accessible"
  cases hst : env.statsResult with
  | none =>
    refine ⟨{ status with
        conditions := SetCondition now status.conditions
          (ReadyCondition now "RepositoryAccessible"
            "Repository is initialized and accessible"),
        observedGeneration := generation }, [], ?_, ⟨c, hc, hcs, hcr, hcm⟩, rfl, rfl, ?_,
        fun _ => ⟨rfl, ?_⟩⟩ <;>
      simp [repoReadyPath, hst]
  | some st =>
    refine ⟨{ status with
        conditions := SetCondition now status.conditions
          (ReadyCondition now "RepositoryAccessible"
            "Repository is initialized and accessible"),
        observedGeneration := generation },
      [RepoAction.statusUpdate { status with
        conditions := SetCondition now status.conditions
          (ReadyCondition now "RepositoryAccessible"
            "Repository is initialized and accessible"),
        observedGeneration := generation,
        statistics := some
          { totalSize := formatBytes st.totalSize,
            totalFileCount := Int.ofNat st.totalFileCount,
            snapshotCount := Int.ofNat st.snapshotCount } }], ?_,
      ⟨c, hc, hcs, hcr, hcm⟩, rfl, rfl, ?_, fun hn => absurd hn (by simp)⟩ <;>
      simp [repoReadyPath, hst]

/-- C9: for every Repository reconcile in which the check (or its
post-unlock retry, or the init fallback) succeeds, the
`Ready=True/RepositoryAccessible` status write appears in the trace
strictly before the statistics call; when the statistics refresh fails,
nothing follows the stats call and the final status is exactly the
already-written snapshot (Ready condition and all other fields unchanged),
and the reconcile still completes, requeuing after the long (1 hour)
interval. -/
theorem repo_ready_before_stats (staleLockThreshold now generation : Int) (env : RepoEnv)
    (status : RepoStatus)
    (hsucc : repoCheckSucceeds staleLockThreshold env = true) :
    ∃ acts s1 rest,
      (reconcileResticRepository staleLockThreshold now generation env status).trace
        = acts ++ [RepoAction.statusUpdate s1, RepoAction.stats] ++ rest ∧
      (∃ c, GetCondition s1.conditions "Ready" = some c ∧
        c.status = ConditionStatus.isTrue ∧ c.reason = "RepositoryAccessible") ∧
      s1.observedGeneration = generation ∧
      s1.statistics = status.statistics ∧
      (reconcileResticRepository staleLockThreshold now generation env status).requeueAfter
        = defaultRequeueInterval ∧
      (env.statsResult = none →
        rest = [] ∧
        (reconcileResticRepository staleLockThreshold now generation env status).status
          = s1) := by
  have finish : ∀ acts,
      reconcileResticRepository staleLockThreshold now generation env status
          = repoReadyPath now generation env acts status →
      ∃ acts2 s1 rest,
        (reconcileResticRepository staleLockThreshold now generation env status).trace
          = acts2 ++ [RepoAction.statusUpdate s1, RepoAction.stats] ++ rest ∧
        (∃ c, GetCondition s1.conditions "Ready" = some c ∧
          c.status = ConditionStatus.isTrue ∧ c.reason = "RepositoryAccessible") ∧
        s1.observedGeneration = generation ∧
        s1.statistics = status.statistics ∧
        (reconcileResticRepository staleLockThreshold now generation env
          status).requeueAfter = defaultRequeueInterval ∧
        (env.statsResult = none →
          rest = [] ∧
          (reconcileResticRepository staleLockThreshold now generation env status).status
            = s1) := by
    intro acts hrw
    obtain ⟨s1, rest, htr, ⟨c, hc, hcs, hcr, _⟩, hog, hstats, hrq, hnone⟩ :=
      repoReadyPath_ready now generation env acts status
    rw [hrw]
    exact ⟨acts, s1, rest, htr, ⟨c, hc, hcs, hcr⟩, hog, hstats, hrq, hnone⟩
  cases hcreds : env.credsErr with
  | some ce => simp [repoCheckSucceeds, hcreds] at hsucc
  | none =>
    cases hcheck : env.checkErr with
    | none =>
      exact finish [RepoAction.check] (by simp [reconcileResticRepository, hcreds, hcheck])
    | some errStr =>
      by_cases hlock : goContains errStr "repository is already locked" = true
      · by_cases hge : parseLockAge errStr ≥ getStaleLockThreshold staleLockThreshold
        · cases hu : env.unlockErr with
          | some u =>
            rw [repoCheckSucceeds] at hsucc
            simp [hcreds, hcheck, hlock, hu, if_pos hge] at hsucc
          | none =>
            cases hre : env.recheckErr with
            | none =>
              exact finish [RepoAction.check, RepoAction.unlock, RepoAction.check]
                (by simp [reconcileResticRepository, hcreds, hcheck, hlock, hu, hre,
                  if_pos hge])
            | some re =>
              cases hi : env.initErr with
              | some ie =>
                rw [repoCheckSucceeds] at hsucc
                simp [hcreds, hcheck, hlock, hu, hre, hi, if_pos hge] at hsucc
              | none =>
                exact finish
                  [RepoAction.check, RepoAction.unlock, RepoAction.check, RepoAction.init]
                  (by simp [reconcileResticRepository, repoInitPath, hcreds, hcheck,
                    hlock, hu, hre, hi, if_pos hge])
        · rw [repoCheckSucceeds] at hsucc
          simp [hcreds, hcheck, hlock, if_neg hge] at hsucc
      · cases hi : env.initErr with
        | some ie =>
          rw [repoCheckSucceeds] at hsucc
          simp [hcreds, hcheck, hlock, hi] at hsucc
        | none =>
          exact finish [RepoAction.check, RepoAction.init]
            (by simp [reconcileResticRepository, repoInitPath, hcreds, hcheck, hlock, hi])

/-- Witness for C9 at a concrete input: check succeeds, the statistics
query fails — the trace still opens with the Ready write before the stats
call, the requeue is one hour, and the final status is the Ready snapshot. -/
theorem repo_ready_before_stats_witness :
    ∃ acts s1 rest,
      (reconcileResticRepository 0 0 7 statsFailureEnv emptyRepoStatus).trace
        = acts ++ [RepoAction.statusUpdate s1, RepoAction.stats] ++ rest ∧
      (∃ c, GetCondition s1.conditions "Ready" = some c ∧
        c.status = ConditionStatus.isTrue ∧ c.reason = "RepositoryAccessible") ∧
      s1.observedGeneration = 7 ∧
      s1.statistics = emptyRepoStatus.statistics ∧
      (reconcileResticRepository 0 0 7 statsFailureEnv emptyRepoStatus).requeueAfter
        = defaultRequeueInterval ∧
      (statsFailureEnv.statsResult = none →
        rest = [] ∧
        (reconcileResticRepository 0 0 7 statsFailureEnv emptyRepoStatus).status = s1) := by
  exact repo_ready_before_stats 0 0 7 statsFailureEnv emptyRepoStatus (by decide)

/-- C10: a locked-repository message from which no lock age can be
extracted — no regex match, or a duration that fails to parse — yields a
zero lock age; with the (always positive) effective stale-lock threshold,
such an error is classified below-threshold: no unlock is ever attempted
and the repository is reported locked. -/
theorem unparseable_lock_age_never_unlocks (msg : String)
    (staleLockThreshold now generation : Int) (env : RepoEnv) (status : RepoStatus)
    (hun : ∀ m, lockAgeRegexFindString msg = some m →
      goParseDuration (lockDurationString m) = none)
    (hthr : 0 < getStaleLockThreshold staleLockThreshold)
    (hcreds : env.credsErr = none) (hcheck : env.checkErr = some msg)
    (hlock : goContains msg "repository is already locked" = true) :
    parseLockAge msg = 0 ∧
    countUnlock (reconcileResticRepository staleLockThreshold now generation env
      status).trace = 0 ∧
    ∃ c, GetCondition (reconcileResticRepository staleLockThreshold now generation env
        status).status.conditions "Ready" = some c ∧
      c.status = ConditionStatus.isFalse ∧ c.reason = "RepositoryLocked" := by
  have hz : parseLockAge msg = 0 := by
    cases hf : lockAgeRegexFindString msg with
    | none => unfold parseLockAge; rw [hf]
    | some m =>
      have h1 : parseLockAge msg
          = (match goParseDuration (lockDurationString m) with
             | none => 0
             | some duration => duration) := by
        unfold parseLockAge
        rw [hf]
      rw [h1, hun m hf]
  have hlt : parseLockAge msg < getStaleLockThreshold staleLockThreshold := by
    rw [hz]; exact hthr
  obtain ⟨hcu, _, _, c, hc, hcs, hcr, _⟩ := locked_below_threshold staleLockThreshold
    now generation env status msg hcreds hcheck hlock hlt
  exact ⟨hz, hcu, c, hc, hcs, hcr⟩

/-- Witness for C10 at a concrete input: a locked error with no
"(...s ago)" pattern parses to age zero and triggers no unlock. -/
theorem unparseable_lock_age_never_unlocks_witness :
    parseLockAge lockedErrorMessageNoAge = 0 ∧
    countUnlock (reconcileResticRepository 0 0 1 agelessLockEnv emptyRepoStatus).trace
      = 0 := by
  have h := unparseable_lock_age_never_unlocks lockedErrorMessageNoAge 0 0 1
    agelessLockEnv emptyRepoStatus
    (fun m hm => by
      rw [show lockAgeRegexFindString lockedErrorMessageNoAge = none from by decide] at hm
      exact Option.noConfusion hm)
    (by decide) rfl rfl (by decide)
  exact ⟨h.1, h.2.1⟩

/-- C8: the next-run computation shared by `calculateNextBackup` and
`calculateNextRun` is deterministic — evaluating the same schedule at the
same instant yields the same result; for a schedule that does not parse as
a 5-field expression the computation returns no value, the stored
`nextBackup` is left untouched by the reconcile tail, no error reaches
status (the Ready condition still reads `True/BackupConfigured`) and the
reconcile completes with its ordinary five-minute requeue; the spec's
scenario schedule `"0 2 * * *"` parses while `"invalid-schedule"` does
not. -/
theorem cron_determinism_and_invalid (b : ResticBackup) (p : GlobalRetentionPolicy)
    (t1 t2 : Nat) (now generation : Int) (st : BackupStatus) (ht : t1 = t2) :
    calculateNextBackup b t1 = calculateNextBackup b t2 ∧
    calculateNextRun p t1 = calculateNextRun p t2 ∧
    (parseCronScheduleSpec b.spec.schedule = none →
      calculateNextBackup b t1 = none ∧
      (backupStatusTail now generation t1 b st).1.nextBackup = st.nextBackup ∧
      (∃ c, GetCondition (backupStatusTail now generation t1 b st).1.conditions "Ready"
          = some c ∧ c.status = ConditionStatus.isTrue ∧ c.reason = "BackupConfigured") ∧
      (backupStatusTail now generation t1 b st).2 = 5 * Minute) ∧
    (parseCronScheduleSpec "0 2 * * *").isSome = true ∧
    parseCronScheduleSpec "invalid-schedule" = none := by
  subst ht
  refine ⟨rfl, rfl, fun hn => ⟨?_, ?_, ?_, rfl⟩, by decide, by decide⟩
  · simp [calculateNextBackup, nextRunFromSchedule, hn]
  · simp [backupStatusTail, applyNextBackup, calculateNextBackup, nextRunFromSchedule, hn]
  · obtain ⟨c, hc, hcs, hcr, _⟩ := getCondition_setCondition_ready now st.conditions
      ConditionStatus.isTrue "BackupConfigured" "Backup CronJob is configured and running"
    exact ⟨c, hc, hcs, hcr⟩

/-- Witness for C8 at concrete inputs: the valid schedule computes the next
2:00 instant, the invalid schedule computes nothing and leaves the stored
`nextBackup` as it was. -/
theorem cron_determinism_and_invalid_witness :
    calculateNextBackup sampleBackup 119 = some 120 ∧
    calculateNextBackup sampleBackupInvalidSchedule 119 = none ∧
    (backupStatusTail 0 1 119 sampleBackupInvalidSchedule
        { conditions := [], nextBackup := some 7, observedGeneration := 0 }).1.nextBackup
      = some 7 := by
  have h := cron_determinism_and_invalid sampleBackupInvalidSchedule samplePolicy 119 119
    0 1 { conditions := [], nextBackup := some 7, observedGeneration := 0 } rfl
  have h2 := h.2.2.1 (by decide)
  exact ⟨by decide, h2.1, h2.2.1⟩

end ResticOperator
